import Mathlib

/-!
# Viewport (raylib_viewport.c): a fixed-resolution surface scaled onto a display

Shallow embedding of `src/raylib_viewport.c`.

Modelling conventions.

* C `int` values are `Int`; where a bound matters the hypotheses keep them
  between `INT_MIN` and `INT_MAX`.
* raylib is an external library. What it returns to this file
  (`LoadRenderTexture`, `GetScreenWidth`, `GetScreenHeight`) is an argument of
  the embedded function; what this file asks of it is recorded, in order, as a
  list of `Call`s.
* C `float` values have two models.
  * The exact model (namespace `ZigDug`) idealises them as rationals (`ℚ`): a
    cast `(float)n` is the rational `n`, `fminf` is `min`, and `+ - * /` are
    the field operations. It is used for the statements that speak of exact
    arithmetic, that concern inputs on which every operation is exact in
    binary32, or that depend only on which fields a function reads and writes.
  * The binary32 model (namespace `ZigDug.Binary32`) rounds every cast and
    every `- * /` to the nearest binary32 number, ties to even, each operation
    on its own (no wider intermediate precision, no fused operations). A
    finite `float` is the rational it denotes; a value that is not a finite
    number is `none`. It is used for the statements whose truth depends on
    rounding.
-/

namespace ZigDug

/-! ## raylib types used by the file -/

/-- Rectangle of raylib: four floats. -/
structure Rectangle where
  x : ℚ
  y : ℚ
  width : ℚ
  height : ℚ
  deriving DecidableEq, Repr

/-- Vector2 of raylib: two floats. -/
structure Vector2 where
  x : ℚ
  y : ℚ
  deriving DecidableEq, Repr

/-- Texture handle of raylib (`Texture2D`): identifier and pixel size. -/
structure Texture2D where
  id : Nat
  width : Int
  height : Int
  deriving DecidableEq, Repr

/-- Render texture of raylib (`RenderTexture2D`): framebuffer identifier and
its colour texture. -/
structure RenderTexture2D where
  id : Nat
  texture : Texture2D
  deriving DecidableEq, Repr

/-- Texture filter modes of raylib that the file names. -/
inductive TextureFilter where
  | TEXTURE_FILTER_POINT
  deriving DecidableEq, Repr

/-- Tint colours of raylib that the file names. -/
inductive Color where
  | WHITE
  deriving DecidableEq, Repr

/-- The calls this file makes into raylib that have an effect there, with the
arguments passed. -/
inductive Call where
  | LoadRenderTexture (width height : Int)
  | SetTextureFilter (texture : Texture2D) (filter : TextureFilter)
  | BeginTextureMode (target : RenderTexture2D)
  | EndTextureMode
  | DrawTexturePro (texture : Texture2D) (source dest : Rectangle)
      (origin : Vector2) (rotation : ℚ) (tint : Color)
  | UnloadRenderTexture (target : RenderTexture2D)
  deriving DecidableEq, Repr

/-! ## The Viewport -/

/-- The `Viewport` struct (lines 8-15). -/
structure Viewport where
  target : RenderTexture2D
  src_rect : Rectangle
  dest_rect : Rectangle
  origin : Vector2
  rotation : ℚ
  deriving DecidableEq, Repr

/-- The function `CreateViewport` (lines 24-48), given the render texture that
`LoadRenderTexture(width, height)` returned. -/
def CreateViewport (render_texture : RenderTexture2D) (width height : Int) : Viewport :=
  { target := render_texture
    src_rect :=
      { x := 0
        y := 0
        width := (width : ℚ)
        height := ((-height : Int) : ℚ) }
    dest_rect :=
      { x := 0
        y := 0
        width := (width : ℚ)
        height := (height : ℚ) }
    origin := { x := 0, y := 0 }
    rotation := 0 }

/-- The raylib calls made by `CreateViewport` (lines 26-27). -/
def CreateViewportCalls (render_texture : RenderTexture2D) (width height : Int) : List Call :=
  [Call.LoadRenderTexture width height,
   Call.SetTextureFilter render_texture.texture TextureFilter.TEXTURE_FILTER_POINT]

/-- The function `BeginViewportMode` (lines 50-53): one raylib call; the
viewport is read, not written. -/
def BeginViewportMode (vp : Viewport) : Viewport × List Call :=
  (vp, [Call.BeginTextureMode vp.target])

/-- The function `EndViewportMode` (lines 55-58): one raylib call, no
viewport involved. -/
def EndViewportMode : List Call :=
  [Call.EndTextureMode]

/-- The function `DrawViewport` (lines 60-68): one raylib call; the viewport
is read, not written. -/
def DrawViewport (vp : Viewport) : Viewport × List Call :=
  (vp, [Call.DrawTexturePro vp.target.texture vp.src_rect vp.dest_rect vp.origin
          vp.rotation Color.WHITE])

/-- The function `ScaleViewportToScreen` (lines 70-86), given the values that
`GetScreenWidth()` and `GetScreenHeight()` returned. -/
def ScaleViewportToScreen (GetScreenWidth GetScreenHeight : Int) (vp : Viewport) : Viewport :=
  let screen_width : ℚ := (GetScreenWidth : ℚ)
  let screen_height : ℚ := (GetScreenHeight : ℚ)
  let scale_h : ℚ := screen_width / vp.src_rect.width
  let scale_v : ℚ := screen_height / -vp.src_rect.height
  let scale : ℚ := min scale_h scale_v
  let dest_rect : Rectangle :=
    { x := 0
      y := 0
      width := vp.src_rect.width * scale
      height := -vp.src_rect.height * scale }
  let origin_x : ℚ := -(screen_width - dest_rect.width) * (1 / 2)
  let origin_y : ℚ := -(screen_height - dest_rect.height) * (1 / 2)
  { vp with
    dest_rect := dest_rect
    origin := { x := origin_x, y := origin_y } }

/-- The function `UnloadViewport` (lines 88-91): one raylib call. -/
def UnloadViewport (vp : Viewport) : List Call :=
  [Call.UnloadRenderTexture vp.target]

/-! ## Sequences of operations on one viewport -/

/-- One call of the per-frame interface on a viewport. `scale` carries the
display size that raylib reports at that call. -/
inductive Op where
  | beginMode
  | endMode
  | scale (screen_width screen_height : Int)
  | draw
  deriving DecidableEq, Repr

/-- Effect of one operation on the viewport and on the sequence of raylib
calls made so far. -/
def step (s : Viewport × List Call) : Op → Viewport × List Call
  | Op.beginMode => ((BeginViewportMode s.1).1, s.2 ++ (BeginViewportMode s.1).2)
  | Op.endMode => (s.1, s.2 ++ EndViewportMode)
  | Op.scale w h => (ScaleViewportToScreen w h s.1, s.2)
  | Op.draw => ((DrawViewport s.1).1, s.2 ++ (DrawViewport s.1).2)

/-- Effect of a sequence of operations, first to last. -/
def run (s : Viewport × List Call) (ops : List Op) : Viewport × List Call :=
  ops.foldl step s

/-- The single scale factor of the specification for a logical size and a
display size: the smaller of the two per-axis ratios. -/
def fitScale (lw lh dw dh : Int) : ℚ :=
  min ((dw : ℚ) / (lw : ℚ)) ((dh : ℚ) / (lh : ℚ))

/-- Value of the local variable `scale` of `ScaleViewportToScreen`
(lines 72-76) for a viewport and the display size reported by raylib. -/
def scaleOf (GetScreenWidth GetScreenHeight : Int) (vp : Viewport) : ℚ :=
  min ((GetScreenWidth : ℚ) / vp.src_rect.width) ((GetScreenHeight : ℚ) / -vp.src_rect.height)

/-- A render texture of the given pixel size, as `LoadRenderTexture` would
return it, used for the concrete instances below. -/
def sampleTarget (width height : Int) : RenderTexture2D :=
  { id := 1, texture := { id := 1, width := width, height := height } }

/-! ## The binary32 model

The same two functions with every `float` operation rounded as IEEE 754
binary32 does: to the nearest representable number, ties to even, with
gradual underflow, each operation on its own.

A finite `float` is the rational it denotes, so `+0` and `-0` are both `0`;
the two differ only as divisors. A division by zero or an overflow gives
`none`: the C program goes on with an infinity or a NaN there, and the model
does not follow it. The theorems on this model prove that this does not
happen after `CreateViewport` with a positive logical size, whatever `int`
display sizes raylib reports. -/

namespace Binary32

/-- Nearest integer to a rational, ties to the even integer. -/
def roundHalfEven (r : ℚ) : Int :=
  if r - (⌊r⌋ : ℚ) < 1 / 2 then ⌊r⌋
  else if 1 / 2 < r - (⌊r⌋ : ℚ) then ⌊r⌋ + 1
  else if ⌊r⌋ % 2 = 0 then ⌊r⌋ else ⌊r⌋ + 1

/-- Binary exponent of the binade of `q`, not below the least normal
exponent `-126`. -/
def exponent (q : ℚ) : Int := max (Int.log 2 |q|) (-126)

/-- Spacing of binary32 numbers around `q`: 24 significant bits. -/
def ulp (q : ℚ) : ℚ := (2 : ℚ) ^ (exponent q - 23)

/-- Rounding of an exact result to binary32: the nearest multiple of the
spacing, ties to even; `none` when that is `2^128` or more in magnitude
(overflow). -/
def rnd (q : ℚ) : Option ℚ :=
  if |(roundHalfEven (q / ulp q) : ℚ) * ulp q| < (2 : ℚ) ^ (128 : ℕ) then
    some ((roundHalfEven (q / ulp q) : ℚ) * ulp q)
  else none

/-- The cast `(float)n` of an `int`. -/
def ofInt (n : Int) : Option ℚ := rnd (n : ℚ)

/-- The `float` subtraction `a - b`. -/
def sub (a b : ℚ) : Option ℚ := rnd (a - b)

/-- The `float` product `a * b`. -/
def mul (a b : ℚ) : Option ℚ := rnd (a * b)

/-- The `float` quotient `a / b`; a zero divisor gives no finite number. -/
def div (a b : ℚ) : Option ℚ := if b = 0 then none else rnd (a / b)

/-- Largest value of a C `int`. -/
def INT_MAX : Int := 2147483647

/-- Least value of a C `int`. -/
def INT_MIN : Int := -2147483648

/-- The function `CreateViewport` (lines 24-48) in binary32, given the render
texture that `LoadRenderTexture(width, height)` returned. -/
def CreateViewport (render_texture : RenderTexture2D) (width height : Int) : Option Viewport := do
  let src_width ← ofInt width
  let src_height ← ofInt (-height)
  let dest_width ← ofInt width
  let dest_height ← ofInt height
  pure
    { target := render_texture
      src_rect := { x := 0, y := 0, width := src_width, height := src_height }
      dest_rect := { x := 0, y := 0, width := dest_width, height := dest_height }
      origin := { x := 0, y := 0 }
      rotation := 0 }

/-- The function `ScaleViewportToScreen` (lines 70-86) in binary32, given the
values that `GetScreenWidth()` and `GetScreenHeight()` returned. -/
def ScaleViewportToScreen (GetScreenWidth GetScreenHeight : Int) (vp : Viewport) :
    Option Viewport := do
  let screen_width ← ofInt GetScreenWidth
  let screen_height ← ofInt GetScreenHeight
  let scale_h ← div screen_width vp.src_rect.width
  let scale_v ← div screen_height (-vp.src_rect.height)
  let scale : ℚ := min scale_h scale_v
  let dest_width ← mul vp.src_rect.width scale
  let dest_height ← mul (-vp.src_rect.height) scale
  let slack_x ← sub screen_width dest_width
  let origin_x ← mul (-slack_x) (1 / 2)
  let slack_y ← sub screen_height dest_height
  let origin_y ← mul (-slack_y) (1 / 2)
  pure
    { vp with
      dest_rect := { x := 0, y := 0, width := dest_width, height := dest_height }
      origin := { x := origin_x, y := origin_y } }

/-- Effect of one operation in binary32 on the viewport and on the sequence of
raylib calls made so far. -/
def step (s : Viewport × List Call) : Op → Option (Viewport × List Call)
  | Op.beginMode => some ((BeginViewportMode s.1).1, s.2 ++ (BeginViewportMode s.1).2)
  | Op.endMode => some (s.1, s.2 ++ EndViewportMode)
  | Op.scale w h => (ScaleViewportToScreen w h s.1).map (fun vp => (vp, s.2))
  | Op.draw => some ((DrawViewport s.1).1, s.2 ++ (DrawViewport s.1).2)

/-- Effect of a sequence of operations in binary32, first to last. -/
def run (s : Viewport × List Call) : List Op → Option (Viewport × List Call)
  | [] => some s
  | op :: ops => (step s op).bind (fun s1 => run s1 ops)

/-- The state after `CreateViewport(width, height)` and then a sequence of
operations, in binary32. -/
def session (render_texture : RenderTexture2D) (width height : Int) (ops : List Op) :
    Option (Viewport × List Call) :=
  (CreateViewport render_texture width height).bind
    (fun vp => run (vp, CreateViewportCalls render_texture width height) ops)

/-- The display sizes an operation carries are values of a C `int`. -/
def opInRange : Op → Bool
  | Op.scale w h =>
      decide (INT_MIN ≤ w) && decide (w ≤ INT_MAX) && decide (INT_MIN ≤ h) && decide (h ≤ INT_MAX)
  | _ => true

/-! ### Concrete viewports used by the instances below -/

/-- The viewport that `CreateViewport(320, 180)` returns in binary32. -/
def viewport_320_180 : Viewport :=
  { target := sampleTarget 320 180
    src_rect := { x := 0, y := 0, width := 320, height := -180 }
    dest_rect := { x := 0, y := 0, width := 320, height := 180 }
    origin := { x := 0, y := 0 }
    rotation := 0 }

/-- The viewport `viewport_320_180` after `ScaleViewportToScreen` under a `1366 x 768`
display, in binary32. -/
def viewport_320_180_at_1366_768 : Viewport :=
  { target := sampleTarget 320 180
    src_rect := { x := 0, y := 0, width := 320, height := -180 }
    dest_rect := { x := 0, y := 0, width := (11184811 / 8192), height := (12582913 / 16384) }
    origin := { x := (-5461 / 16384), y := (1 / 32768) }
    rotation := 0 }

/-- The viewport `viewport_320_180` after `ScaleViewportToScreen` under a `1920 x 200`
display, in binary32. -/
def viewport_320_180_at_1920_200 : Viewport :=
  { target := sampleTarget 320 180
    src_rect := { x := 0, y := 0, width := 320, height := -180 }
    dest_rect := { x := 0, y := 0, width := (11650845 / 32768), height := (13107201 / 65536) }
    origin := { x := (-12815929 / 16384), y := (1 / 131072) }
    rotation := 0 }

/-- The viewport that `CreateViewport(4, 3)` returns in binary32. -/
def viewport_4_3 : Viewport :=
  { target := sampleTarget 4 3
    src_rect := { x := 0, y := 0, width := 4, height := -3 }
    dest_rect := { x := 0, y := 0, width := 4, height := 3 }
    origin := { x := 0, y := 0 }
    rotation := 0 }

/-- The viewport `viewport_4_3` after `ScaleViewportToScreen` under a `8 x 6`
display, in binary32. -/
def viewport_4_3_at_8_6 : Viewport :=
  { target := sampleTarget 4 3
    src_rect := { x := 0, y := 0, width := 4, height := -3 }
    dest_rect := { x := 0, y := 0, width := 8, height := 6 }
    origin := { x := 0, y := 0 }
    rotation := 0 }

end Binary32

/-! ## Auxiliary facts: exact model -/

/-- Closed form of the viewport after `ScaleViewportToScreen` on a freshly
created viewport. -/
theorem scale_created (t : RenderTexture2D) (lw lh dw dh : Int) :
    ScaleViewportToScreen dw dh (CreateViewport t lw lh) =
      { target := t
        src_rect := { x := 0, y := 0, width := (lw : ℚ), height := -(lh : ℚ) }
        dest_rect :=
          { x := 0
            y := 0
            width := (lw : ℚ) * fitScale lw lh dw dh
            height := (lh : ℚ) * fitScale lw lh dw dh }
        origin :=
          { x := -((dw : ℚ) - (lw : ℚ) * fitScale lw lh dw dh) / 2
            y := -((dh : ℚ) - (lh : ℚ) * fitScale lw lh dw dh) / 2 }
        rotation := 0 } := by
  simp only [ScaleViewportToScreen, CreateViewport, fitScale, Int.cast_neg, neg_neg]
  congr 2 <;> ring

/-- The destination rectangle written by `ScaleViewportToScreen` is the source
size, with the height sign undone, times the local `scale`. -/
theorem dest_rect_eq_scaleOf (dw dh : Int) (vp : Viewport) :
    (ScaleViewportToScreen dw dh vp).dest_rect =
      { x := 0
        y := 0
        width := vp.src_rect.width * scaleOf dw dh vp
        height := -vp.src_rect.height * scaleOf dw dh vp } := rfl

/-- The scale factor is positive when the display size is. -/
theorem fitScale_pos (lw lh dw dh : Int) (hlw : 0 < lw) (hlh : 0 < lh)
    (hdw : 0 < dw) (hdh : 0 < dh) : 0 < fitScale lw lh dw dh := by
  have h1 : (0 : ℚ) < (lw : ℚ) := by exact_mod_cast hlw
  have h2 : (0 : ℚ) < (lh : ℚ) := by exact_mod_cast hlh
  have h3 : (0 : ℚ) < (dw : ℚ) := by exact_mod_cast hdw
  have h4 : (0 : ℚ) < (dh : ℚ) := by exact_mod_cast hdh
  exact lt_min (div_pos h3 h1) (div_pos h4 h2)

namespace Binary32

theorem roundHalfEven_err (r : ℚ) : |(roundHalfEven r : ℚ) - r| ≤ 1 / 2 := by
  have h1 : (⌊r⌋ : ℚ) ≤ r := Int.floor_le r
  have h2 : r < (⌊r⌋ : ℚ) + 1 := Int.lt_floor_add_one r
  unfold roundHalfEven
  split_ifs <;> push_cast <;> rw [abs_le] <;> constructor <;> linarith

theorem roundHalfEven_eq (r : ℚ) (n : Int) (h : |r - (n : ℚ)| < 1 / 2) :
    roundHalfEven r = n := by
  have h1 : (⌊r⌋ : ℚ) ≤ r := Int.floor_le r
  have h2 : r < (⌊r⌋ : ℚ) + 1 := Int.lt_floor_add_one r
  rw [abs_lt] at h
  obtain ⟨h3, h4⟩ := h
  have h5 : (⌊r⌋ : ℚ) < (n : ℚ) + 1 := by linarith
  have h6 : (n : ℚ) - 1 < (⌊r⌋ : ℚ) + 1 := by linarith
  have h7 : ⌊r⌋ < n + 1 := by exact_mod_cast h5
  have h8 : n - 1 < ⌊r⌋ + 1 := by exact_mod_cast h6
  have h9 : ⌊r⌋ = n ∨ ⌊r⌋ = n - 1 := by omega
  unfold roundHalfEven
  rcases h9 with h9 | h9
  · rw [h9]
    rw [if_pos (by linarith)]
  · have h10 : (⌊r⌋ : ℚ) = (n : ℚ) - 1 := by rw [h9]; push_cast; ring
    rw [if_neg (by rw [h10]; linarith), if_pos (by rw [h10]; linarith), h9]
    ring

theorem roundHalfEven_nonneg (r : ℚ) (h : 0 ≤ r) : 0 ≤ roundHalfEven r := by
  have h1 : 0 ≤ ⌊r⌋ := Int.floor_nonneg.mpr h
  unfold roundHalfEven
  split_ifs <;> omega

theorem roundHalfEven_nonpos (r : ℚ) (h : r ≤ 0) : roundHalfEven r ≤ 0 := by
  have h1 : (⌊r⌋ : ℚ) ≤ r := Int.floor_le r
  have h0 : ⌊r⌋ ≤ 0 := by
    have : (⌊r⌋ : ℚ) ≤ 0 := le_trans h1 h
    exact_mod_cast this
  unfold roundHalfEven
  split_ifs with ha hb hc
  · exact h0
  · have : (⌊r⌋ : ℚ) < 0 := by linarith
    have : ⌊r⌋ < 0 := by exact_mod_cast this
    omega
  · exact h0
  · have : (⌊r⌋ : ℚ) < 0 := by linarith
    have : ⌊r⌋ < 0 := by exact_mod_cast this
    omega

theorem ulp_pos (q : ℚ) : 0 < ulp q := by
  unfold ulp
  positivity

theorem zpow_log_le_abs (q : ℚ) (hq : q ≠ 0) : (2 : ℚ) ^ Int.log 2 |q| ≤ |q| := by
  have h := Int.zpow_log_le_self (b := 2) (r := |q|) (by norm_num) (abs_pos.mpr hq)
  simpa using h

theorem log_eq_of_bounds (q : ℚ) (e : Int) (h1 : (2 : ℚ) ^ e ≤ |q|) (h2 : |q| < (2 : ℚ) ^ (e + 1)) :
    Int.log 2 |q| = e := by
  have hpos : 0 < |q| := lt_of_lt_of_le (by positivity) h1
  have ha : e ≤ Int.log 2 |q| := by
    rw [← Int.zpow_le_iff_le_log (by norm_num) hpos]
    simpa using h1
  have hb : Int.log 2 |q| < e + 1 := by
    rw [← Int.lt_zpow_iff_log_lt (by norm_num) hpos]
    simpa using h2
  omega


theorem rnd_eq_some (q y : ℚ) (h : rnd q = some y) :
    y = (roundHalfEven (q / ulp q) : ℚ) * ulp q := by
  unfold rnd at h
  split_ifs at h
  exact (Option.some.inj h).symm

theorem rnd_zero : rnd 0 = some 0 := by
  have h : roundHalfEven 0 = 0 := roundHalfEven_eq 0 0 (by norm_num)
  unfold rnd
  rw [zero_div, h]
  simp

theorem rnd_abs_sub_le_half_ulp (q y : ℚ) (h : rnd q = some y) : |y - q| ≤ ulp q / 2 := by
  have hu := ulp_pos q
  have he := roundHalfEven_err (q / ulp q)
  rw [rnd_eq_some q y h]
  have h1 : (roundHalfEven (q / ulp q) : ℚ) * ulp q - q =
      ((roundHalfEven (q / ulp q) : ℚ) - q / ulp q) * ulp q := by
    field_simp
  rw [h1, abs_mul, abs_of_pos hu]
  calc |(roundHalfEven (q / ulp q) : ℚ) - q / ulp q| * ulp q ≤ 1 / 2 * ulp q :=
        mul_le_mul_of_nonneg_right he hu.le
    _ = ulp q / 2 := by ring

theorem ulp_le_of_normal (q : ℚ) (h : (2 : ℚ) ^ (-126 : ℤ) ≤ |q|) :
    ulp q ≤ (2 : ℚ) ^ (-23 : ℤ) * |q| := by
  have hpos : 0 < |q| := lt_of_lt_of_le (by positivity) h
  have hq : q ≠ 0 := abs_pos.mp hpos
  have hlog : -126 ≤ Int.log 2 |q| := by
    rw [← Int.zpow_le_iff_le_log (by norm_num) hpos]
    simpa using h
  have hexp : exponent q = Int.log 2 |q| := max_eq_left hlog
  unfold ulp
  rw [hexp, sub_eq_add_neg, zpow_add₀ (by norm_num : (2 : ℚ) ≠ 0), mul_comm]
  exact mul_le_mul_of_nonneg_left (zpow_log_le_abs q hq) (by positivity)

theorem ulp_of_subnormal (q : ℚ) (hq : q ≠ 0) (h : |q| < (2 : ℚ) ^ (-126 : ℤ)) :
    ulp q = (2 : ℚ) ^ (-149 : ℤ) := by
  have hpos : 0 < |q| := abs_pos.mpr hq
  have hlog : Int.log 2 |q| < -126 := by
    rw [← Int.lt_zpow_iff_log_lt (by norm_num) hpos]
    simpa using h
  have hexp : exponent q = -126 := max_eq_right hlog.le
  unfold ulp
  rw [hexp]
  norm_num

/-- Relative error of one rounding in the normal range. -/
theorem rnd_err_normal (q y : ℚ) (h : rnd q = some y) (hn : (2 : ℚ) ^ (-126 : ℤ) ≤ |q|) :
    |y - q| ≤ (2 : ℚ) ^ (-24 : ℤ) * |q| := by
  have h1 := rnd_abs_sub_le_half_ulp q y h
  have h2 := ulp_le_of_normal q hn
  have h3 : (2 : ℚ) ^ (-23 : ℤ) * |q| / 2 = (2 : ℚ) ^ (-24 : ℤ) * |q| := by
    rw [show (-24 : ℤ) = -23 + -1 by norm_num, zpow_add₀ (by norm_num : (2 : ℚ) ≠ 0)]
    norm_num
    ring
  calc |y - q| ≤ ulp q / 2 := h1
    _ ≤ (2 : ℚ) ^ (-23 : ℤ) * |q| / 2 := div_le_div_of_nonneg_right h2 (by norm_num)
    _ = (2 : ℚ) ^ (-24 : ℤ) * |q| := h3

/-- Error of one rounding anywhere below the overflow threshold. -/
theorem rnd_err (q y : ℚ) (h : rnd q = some y) :
    |y - q| ≤ (2 : ℚ) ^ (-24 : ℤ) * |q| + (2 : ℚ) ^ (-150 : ℤ) := by
  by_cases hq : q = 0
  · subst hq
    rw [rnd_zero] at h
    have : y = 0 := (Option.some.inj h).symm
    subst this
    norm_num
  by_cases hn : (2 : ℚ) ^ (-126 : ℤ) ≤ |q|
  · have := rnd_err_normal q y h hn
    have h0 : (0 : ℚ) ≤ (2 : ℚ) ^ (-150 : ℤ) := by positivity
    linarith
  · have h1 := rnd_abs_sub_le_half_ulp q y h
    rw [ulp_of_subnormal q hq (not_le.mp hn)] at h1
    have h2 : (2 : ℚ) ^ (-149 : ℤ) / 2 = (2 : ℚ) ^ (-150 : ℤ) := by
      rw [show (-150 : ℤ) = -149 + -1 by norm_num, zpow_add₀ (by norm_num : (2 : ℚ) ≠ 0)]
      norm_num
    have h0 : (0 : ℚ) ≤ (2 : ℚ) ^ (-24 : ℤ) * |q| := by positivity
    calc |y - q| ≤ (2 : ℚ) ^ (-149 : ℤ) / 2 := h1
      _ = (2 : ℚ) ^ (-150 : ℤ) := h2
      _ ≤ (2 : ℚ) ^ (-24 : ℤ) * |q| + (2 : ℚ) ^ (-150 : ℤ) := le_add_of_nonneg_left h0

theorem rnd_nonneg (q y : ℚ) (h : rnd q = some y) (hq : 0 ≤ q) : 0 ≤ y := by
  rw [rnd_eq_some q y h]
  have h1 : 0 ≤ q / ulp q := div_nonneg hq (ulp_pos q).le
  have h2 : (0 : ℚ) ≤ (roundHalfEven (q / ulp q) : ℚ) := by
    exact_mod_cast roundHalfEven_nonneg _ h1
  exact mul_nonneg h2 (ulp_pos q).le

theorem rnd_nonpos (q y : ℚ) (h : rnd q = some y) (hq : q ≤ 0) : y ≤ 0 := by
  rw [rnd_eq_some q y h]
  have h1 : q / ulp q ≤ 0 := div_nonpos_of_nonpos_of_nonneg hq (ulp_pos q).le
  have h2 : (roundHalfEven (q / ulp q) : ℚ) ≤ 0 := by
    exact_mod_cast roundHalfEven_nonpos _ h1
  exact mul_nonpos_of_nonpos_of_nonneg h2 (ulp_pos q).le

theorem ulp_le_of_abs_le (q : ℚ) (hq : |q| ≤ (2 : ℚ) ^ (127 : ℤ)) :
    ulp q ≤ (2 : ℚ) ^ (104 : ℤ) := by
  have hlog : Int.log 2 |q| ≤ 127 := by
    by_cases h0 : q = 0
    · subst h0; simp
    have hpos : 0 < |q| := abs_pos.mpr h0
    have : Int.log 2 |q| < 128 := by
      rw [← Int.lt_zpow_iff_log_lt (by norm_num) hpos]
      have : (2 : ℚ) ^ (127 : ℤ) < (2 : ℚ) ^ (128 : ℤ) := by norm_num
      simpa using lt_of_le_of_lt hq this
    omega
  have hexp : exponent q ≤ 127 := max_le hlog (by norm_num)
  unfold ulp
  exact zpow_le_zpow_right₀ (by norm_num) (by omega)

/-- Below the overflow threshold rounding returns a value. -/
theorem rnd_total (q : ℚ) (hq : |q| ≤ (2 : ℚ) ^ (127 : ℤ)) : ∃ y, rnd q = some y := by
  have hu := ulp_le_of_abs_le q hq
  have hpos := ulp_pos q
  have he := roundHalfEven_err (q / ulp q)
  have h1 : (roundHalfEven (q / ulp q) : ℚ) * ulp q - q =
      ((roundHalfEven (q / ulp q) : ℚ) - q / ulp q) * ulp q := by
    field_simp
  have h2 : |(roundHalfEven (q / ulp q) : ℚ) * ulp q - q| ≤ ulp q / 2 := by
    rw [h1, abs_mul, abs_of_pos hpos]
    calc |(roundHalfEven (q / ulp q) : ℚ) - q / ulp q| * ulp q ≤ 1 / 2 * ulp q :=
          mul_le_mul_of_nonneg_right he hpos.le
      _ = ulp q / 2 := by ring
  have h3 : |(roundHalfEven (q / ulp q) : ℚ) * ulp q| < (2 : ℚ) ^ (128 : ℕ) := by
    have h4 : |(roundHalfEven (q / ulp q) : ℚ) * ulp q| ≤
        |(roundHalfEven (q / ulp q) : ℚ) * ulp q - q| + |q| := by
      have := abs_add ((roundHalfEven (q / ulp q) : ℚ) * ulp q - q) q
      simpa using this
    have h5 : (2 : ℚ) ^ (104 : ℤ) / 2 + (2 : ℚ) ^ (127 : ℤ) < (2 : ℚ) ^ (128 : ℕ) := by norm_num
    linarith
  exact ⟨_, if_pos h3⟩

/-- Evaluation of one rounding of a positive number from its exponent and
integer significand. -/
theorem rnd_eval (q : ℚ) (e n : Int) (he : -126 ≤ e) (h1 : (2 : ℚ) ^ e ≤ q)
    (h2 : q < (2 : ℚ) ^ (e + 1)) (hlo : (n : ℚ) - 1 / 2 < q / (2 : ℚ) ^ (e - 23))
    (hhi : q / (2 : ℚ) ^ (e - 23) < (n : ℚ) + 1 / 2)
    (hov : (n : ℚ) * (2 : ℚ) ^ (e - 23) < (2 : ℚ) ^ (128 : ℕ)) :
    rnd q = some ((n : ℚ) * (2 : ℚ) ^ (e - 23)) := by
  have hq : 0 < q := lt_of_lt_of_le (by positivity) h1
  have habs : |q| = q := abs_of_pos hq
  have hlog := log_eq_of_bounds q e (by rw [habs]; exact h1) (by rw [habs]; exact h2)
  have hexp : exponent q = e := by
    unfold exponent
    rw [hlog]
    exact max_eq_left he
  have hulp : ulp q = (2 : ℚ) ^ (e - 23) := by
    unfold ulp
    rw [hexp]
  have hn : |q / (2 : ℚ) ^ (e - 23) - (n : ℚ)| < 1 / 2 := by
    rw [abs_lt]
    constructor <;> linarith
  have hpos : (0 : ℚ) < (2 : ℚ) ^ (e - 23) := by positivity
  have hn0 : (0 : ℚ) ≤ (n : ℚ) := by
    have hr := roundHalfEven_nonneg (q / (2 : ℚ) ^ (e - 23)) (div_nonneg hq.le hpos.le)
    rw [roundHalfEven_eq _ n hn] at hr
    exact_mod_cast hr
  unfold rnd
  rw [hulp, roundHalfEven_eq _ n hn, abs_of_nonneg (mul_nonneg hn0 hpos.le), if_pos hov]

theorem roundHalfEven_neg (r : ℚ) : roundHalfEven (-r) = -roundHalfEven r := by
  have h1 : (⌊r⌋ : ℚ) ≤ r := Int.floor_le r
  have h2 : r < (⌊r⌋ : ℚ) + 1 := Int.lt_floor_add_one r
  by_cases hint : (⌊r⌋ : ℚ) = r
  · have hf : ⌊-r⌋ = -⌊r⌋ := by
      rw [Int.floor_eq_iff]
      push_cast
      constructor <;> linarith
    have ha : roundHalfEven r = ⌊r⌋ := by
      unfold roundHalfEven
      rw [if_pos (by linarith)]
    have hb : roundHalfEven (-r) = ⌊-r⌋ := by
      unfold roundHalfEven
      rw [if_pos (by rw [hf]; push_cast; linarith)]
    rw [ha, hb, hf]
  · have hlt : (⌊r⌋ : ℚ) < r := lt_of_le_of_ne h1 hint
    have hf : ⌊-r⌋ = -⌊r⌋ - 1 := by
      rw [Int.floor_eq_iff]
      push_cast
      constructor <;> linarith
    have hfc : ((⌊-r⌋ : Int) : ℚ) = -(⌊r⌋ : ℚ) - 1 := by rw [hf]; push_cast; ring
    unfold roundHalfEven
    rw [hfc]
    by_cases ha : r - (⌊r⌋ : ℚ) < 1 / 2
    · rw [if_pos ha, if_neg (by linarith), if_pos (by linarith), hf]
      ring
    · by_cases hb : 1 / 2 < r - (⌊r⌋ : ℚ)
      · rw [if_neg ha, if_pos hb, if_pos (by linarith), hf]
        ring
      · rw [if_neg ha, if_neg hb, if_neg (by linarith), if_neg (by linarith), hf]
        by_cases hc : ⌊r⌋ % 2 = 0
        · rw [if_pos hc, if_neg (by omega)]
          ring
        · rw [if_neg hc, if_pos (by omega)]
          ring

theorem exponent_neg (q : ℚ) : exponent (-q) = exponent q := by
  unfold exponent
  rw [abs_neg]

theorem ulp_neg (q : ℚ) : ulp (-q) = ulp q := by
  unfold ulp
  rw [exponent_neg]

/-- Rounding is symmetric about zero. -/
theorem rnd_neg (q y : ℚ) (h : rnd q = some y) : rnd (-q) = some (-y) := by
  have hy := rnd_eq_some q y h
  unfold rnd at h ⊢
  split_ifs at h with hlt
  rw [ulp_neg, neg_div, roundHalfEven_neg]
  push_cast
  rw [neg_mul, abs_neg, if_pos hlt, hy]


theorem rnd_abs_le (q y : ℚ) (h : rnd q = some y) : |y| ≤ 2 * |q| + 1 := by
  have h1 := rnd_err q y h
  have h2 : |y| ≤ |y - q| + |q| := by
    have := abs_add (y - q) q
    simpa using this
  have h3 : (2 : ℚ) ^ (-24 : ℤ) * |q| ≤ 1 * |q| :=
    mul_le_mul_of_nonneg_right (by norm_num) (abs_nonneg q)
  have h4 : (2 : ℚ) ^ (-150 : ℤ) ≤ 1 := by norm_num
  linarith

/-- A bounded exact result rounds to a bounded value. -/
theorem rnd_bounded (q B : ℚ) (hq : |q| ≤ B) (hB : 1 ≤ B) (hB2 : B ≤ (2 : ℚ) ^ (127 : ℤ)) :
    ∃ y, rnd q = some y ∧ |y| ≤ 4 * B := by
  obtain ⟨y, hy⟩ := rnd_total q (le_trans hq hB2)
  refine ⟨y, hy, ?_⟩
  have := rnd_abs_le q y hy
  linarith

theorem abs_intCast_le (n : Int) (h1 : INT_MIN ≤ n) (h2 : n ≤ INT_MAX) :
    |(n : ℚ)| ≤ 2147483648 := by
  unfold INT_MIN at h1
  unfold INT_MAX at h2
  rw [abs_le]
  constructor
  · have : ((-2147483648 : Int) : ℚ) ≤ (n : ℚ) := by exact_mod_cast h1
    simpa using this
  · have : (n : ℚ) ≤ ((2147483647 : Int) : ℚ) := by exact_mod_cast h2
    have h3 : ((2147483647 : Int) : ℚ) ≤ 2147483648 := by norm_num
    linarith

/-- On a viewport whose source size is that of a positive logical size,
`ScaleViewportToScreen` returns, and every intermediate value is the rounding
of the exact operation on the values before it. -/
theorem scale_steps (dw dh : Int) (vp : Viewport)
    (hdw1 : INT_MIN ≤ dw) (hdw2 : dw ≤ INT_MAX) (hdh1 : INT_MIN ≤ dh) (hdh2 : dh ≤ INT_MAX)
    (hW1 : 1 / 2 ≤ vp.src_rect.width) (hW2 : vp.src_rect.width ≤ 4294967296)
    (hH1 : 1 / 2 ≤ -vp.src_rect.height) (hH2 : -vp.src_rect.height ≤ 4294967296) :
    ∃ DW DH sh sv dW dH gx ox gy oy : ℚ,
      rnd (dw : ℚ) = some DW ∧ rnd (dh : ℚ) = some DH ∧
      rnd (DW / vp.src_rect.width) = some sh ∧
      rnd (DH / -vp.src_rect.height) = some sv ∧
      rnd (vp.src_rect.width * min sh sv) = some dW ∧
      rnd (-vp.src_rect.height * min sh sv) = some dH ∧
      rnd (DW - dW) = some gx ∧ rnd (-gx * (1 / 2)) = some ox ∧
      rnd (DH - dH) = some gy ∧ rnd (-gy * (1 / 2)) = some oy ∧
      ScaleViewportToScreen dw dh vp =
        some { vp with
          dest_rect := { x := 0, y := 0, width := dW, height := dH }
          origin := { x := ox, y := oy } } := by
  have hWpos : 0 < vp.src_rect.width := by linarith
  have hHpos : 0 < -vp.src_rect.height := by linarith
  have quot : ∀ a d : ℚ, |a| ≤ 8589934592 → 1 / 2 ≤ d → |a / d| ≤ 17179869184 := by
    intro a d ha hd
    have hd0 : 0 < d := by linarith
    rw [abs_div, abs_of_pos hd0, div_le_iff₀ hd0]
    nlinarith [abs_nonneg a]
  have prod : ∀ d s : ℚ, 0 < d → d ≤ 4294967296 → |s| ≤ 68719476736 →
      |d * s| ≤ 295147905179352825856 := by
    intro d s hd0 hd hs
    rw [abs_mul, abs_of_pos hd0]
    nlinarith [abs_nonneg s]
  obtain ⟨DW, hDW, bDW⟩ := rnd_bounded (dw : ℚ) 2147483648 (abs_intCast_le dw hdw1 hdw2)
    (by norm_num) (by norm_num)
  obtain ⟨DH, hDH, bDH⟩ := rnd_bounded (dh : ℚ) 2147483648 (abs_intCast_le dh hdh1 hdh2)
    (by norm_num) (by norm_num)
  norm_num at bDW bDH
  obtain ⟨sh, hsh, bsh⟩ := rnd_bounded (DW / vp.src_rect.width) 17179869184
    (quot DW _ bDW hW1) (by norm_num) (by norm_num)
  obtain ⟨sv, hsv, bsv⟩ := rnd_bounded (DH / -vp.src_rect.height) 17179869184
    (quot DH _ bDH hH1) (by norm_num) (by norm_num)
  norm_num at bsh bsv
  have bs : |min sh sv| ≤ 68719476736 := by
    rcases min_choice sh sv with h | h <;> rw [h] <;> assumption
  obtain ⟨dW, hdW, bdW⟩ := rnd_bounded (vp.src_rect.width * min sh sv) 295147905179352825856
    (prod _ _ hWpos hW2 bs) (by norm_num) (by norm_num)
  obtain ⟨dH, hdH, bdH⟩ := rnd_bounded (-vp.src_rect.height * min sh sv) 295147905179352825856
    (prod _ _ hHpos hH2 bs) (by norm_num) (by norm_num)
  norm_num at bdW bdH
  have diff : ∀ a b : ℚ, |a| ≤ 8589934592 → |b| ≤ 1180591620717411303424 →
      |a - b| ≤ 2361183241434822606848 := by
    intro a b ha hb
    have := abs_sub a b
    linarith
  obtain ⟨gx, hgx, bgx⟩ := rnd_bounded (DW - dW) 2361183241434822606848
    (diff _ _ bDW bdW) (by norm_num) (by norm_num)
  obtain ⟨gy, hgy, bgy⟩ := rnd_bounded (DH - dH) 2361183241434822606848
    (diff _ _ bDH bdH) (by norm_num) (by norm_num)
  norm_num at bgx bgy
  have half : ∀ a : ℚ, |a| ≤ 9444732965739290427392 → |-a * (1 / 2)| ≤ 9444732965739290427392 := by
    intro a ha
    rw [abs_mul, abs_neg, abs_of_pos (by norm_num : (0 : ℚ) < 1 / 2)]
    linarith [abs_nonneg a]
  obtain ⟨ox, hox, -⟩ := rnd_bounded (-gx * (1 / 2)) 9444732965739290427392
    (half _ bgx) (by norm_num) (by norm_num)
  obtain ⟨oy, hoy, -⟩ := rnd_bounded (-gy * (1 / 2)) 9444732965739290427392
    (half _ bgy) (by norm_num) (by norm_num)
  refine ⟨DW, DH, sh, sv, dW, dH, gx, ox, gy, oy, hDW, hDH, hsh, hsv, hdW, hdH, hgx, hox, hgy,
    hoy, ?_⟩
  simp only [ScaleViewportToScreen, ofInt, div, mul, sub, hDW, hDH, hsh, hsv, hdW, hdH, hgx, hox,
    hgy, hoy, if_neg hWpos.ne.symm, if_neg hHpos.ne.symm, Option.bind_eq_bind, Option.some_bind,
    Option.pure_def]

/-- The cast of a positive `int` is within one rounding of it, hence between
`1/2` and `2^32`. -/
theorem cast_pos_bounds (n : Int) (W : ℚ) (h : rnd (n : ℚ) = some W) (h1 : 0 < n)
    (h2 : n ≤ INT_MAX) :
    |W - (n : ℚ)| ≤ (2 : ℚ) ^ (-24 : ℤ) * (n : ℚ) ∧ 1 / 2 ≤ W ∧ W ≤ 4294967296 := by
  have hn1 : (1 : ℚ) ≤ (n : ℚ) := by exact_mod_cast h1
  have hn2 : (n : ℚ) ≤ 2147483648 := by
    have := abs_intCast_le n (le_trans (by unfold INT_MIN; norm_num) h1.le) h2
    exact (abs_le.mp this).2
  have habs : |(n : ℚ)| = (n : ℚ) := abs_of_pos (by linarith)
  have herr := rnd_err_normal (n : ℚ) W h (by rw [habs]; exact le_trans (by norm_num) hn1)
  rw [habs] at herr
  have hu : (2 : ℚ) ^ (-24 : ℤ) ≤ 1 / 2 := by norm_num
  have hu0 : (0 : ℚ) ≤ (2 : ℚ) ^ (-24 : ℤ) := by positivity
  have h3 : (2 : ℚ) ^ (-24 : ℤ) * (n : ℚ) ≤ 1 / 2 * (n : ℚ) :=
    mul_le_mul_of_nonneg_right hu (by linarith)
  obtain ⟨h4, h5⟩ := abs_le.mp herr
  refine ⟨herr, ?_, ?_⟩
  · generalize (2 : ℚ) ^ (-24 : ℤ) * (n : ℚ) = c at h3 h4 h5
    linarith
  · generalize (2 : ℚ) ^ (-24 : ℤ) * (n : ℚ) = c at h3 h4 h5
    linarith

/-- For a positive logical size `CreateViewport` returns, with the casts of
the size in `src_rect` and `dest_rect`. -/
theorem create_steps (t : RenderTexture2D) (lw lh : Int) (hlw : 0 < lw) (hlw2 : lw ≤ INT_MAX)
    (hlh : 0 < lh) (hlh2 : lh ≤ INT_MAX) :
    ∃ W H : ℚ, rnd (lw : ℚ) = some W ∧ rnd (lh : ℚ) = some H ∧
      CreateViewport t lw lh =
        some
          { target := t
            src_rect := { x := 0, y := 0, width := W, height := -H }
            dest_rect := { x := 0, y := 0, width := W, height := H }
            origin := { x := 0, y := 0 }
            rotation := 0 } := by
  have b1 := abs_intCast_le lw (le_trans (by unfold INT_MIN; norm_num) hlw.le) hlw2
  have b2 := abs_intCast_le lh (le_trans (by unfold INT_MIN; norm_num) hlh.le) hlh2
  obtain ⟨W, hW, -⟩ := rnd_bounded (lw : ℚ) 2147483648 b1 (by norm_num) (by norm_num)
  obtain ⟨H, hH, -⟩ := rnd_bounded (lh : ℚ) 2147483648 b2 (by norm_num) (by norm_num)
  have hN : rnd (((-lh : Int) : ℚ)) = some (-H) := by
    rw [Int.cast_neg]
    exact rnd_neg _ _ hH
  refine ⟨W, H, hW, hH, ?_⟩
  simp only [CreateViewport, ofInt, hW, hH, hN, Option.bind_eq_bind, Option.some_bind,
    Option.pure_def]

/-- From a viewport whose source size is that of a positive logical size,
every sequence of operations with `int` display sizes returns, and leaves
`src_rect`, `rotation` and `target` as they were. -/
theorem run_steps (ops : List Op) (s : Viewport × List Call)
    (hops : ∀ op ∈ ops, opInRange op = true)
    (hW1 : 1 / 2 ≤ s.1.src_rect.width) (hW2 : s.1.src_rect.width ≤ 4294967296)
    (hH1 : 1 / 2 ≤ -s.1.src_rect.height) (hH2 : -s.1.src_rect.height ≤ 4294967296) :
    ∃ s1, run s ops = some s1 ∧ s1.1.src_rect = s.1.src_rect ∧
      s1.1.rotation = s.1.rotation ∧ s1.1.target = s.1.target := by
  induction ops generalizing s with
  | nil => exact ⟨s, rfl, rfl, rfl, rfl⟩
  | cons op ops ih =>
    have hop := hops op (List.mem_cons_self _ _)
    have hrest : ∀ o ∈ ops, opInRange o = true := fun o ho => hops o (List.mem_cons_of_mem _ ho)
    have hstep : ∃ s0, step s op = some s0 ∧ s0.1.src_rect = s.1.src_rect ∧
        s0.1.rotation = s.1.rotation ∧ s0.1.target = s.1.target := by
      cases op with
      | beginMode => exact ⟨_, rfl, rfl, rfl, rfl⟩
      | endMode => exact ⟨_, rfl, rfl, rfl, rfl⟩
      | draw => exact ⟨_, rfl, rfl, rfl, rfl⟩
      | scale w h =>
        simp only [opInRange, Bool.and_eq_true, decide_eq_true_eq] at hop
        obtain ⟨⟨⟨hw1, hw2⟩, hh1⟩, hh2⟩ := hop
        obtain ⟨DW, DH, sh, sv, dW, dH, gx, ox, gy, oy, -, -, -, -, -, -, -, -, -, -, hres⟩ :=
          scale_steps w h s.1 hw1 hw2 hh1 hh2 hW1 hW2 hH1 hH2
        refine ⟨({ s.1 with
            dest_rect := { x := 0, y := 0, width := dW, height := dH }
            origin := { x := ox, y := oy } }, s.2), ?_, rfl, rfl, rfl⟩
        simp only [step, hres, Option.map_some']
    obtain ⟨s0, hs0, e1, e2, e3⟩ := hstep
    obtain ⟨s1, hs1, f1, f2, f3⟩ := ih s0 hrest (by rw [e1]; exact hW1) (by rw [e1]; exact hW2)
      (by rw [e1]; exact hH1) (by rw [e1]; exact hH2)
    refine ⟨s1, ?_, f1.trans e1, f2.trans e2, f3.trans e3⟩
    simp only [run, hs0, Option.some_bind, hs1]

/-- After `CreateViewport(lw, lh)` with a positive logical size and any
sequence of operations with `int` display sizes, the session returns a
viewport whose `src_rect` is `{0, 0, (float)lw, -(float)lh}`, and a further
`ScaleViewportToScreen` returns, each of its values being the rounding of the
exact operation on the values before it. -/
theorem session_scale_steps (t : RenderTexture2D) (lw lh : Int) (ops : List Op) (dw dh : Int)
    (hlw : 0 < lw) (hlw2 : lw ≤ INT_MAX) (hlh : 0 < lh) (hlh2 : lh ≤ INT_MAX)
    (hops : ∀ op ∈ ops, opInRange op = true)
    (hdw1 : INT_MIN ≤ dw) (hdw2 : dw ≤ INT_MAX) (hdh1 : INT_MIN ≤ dh) (hdh2 : dh ≤ INT_MAX) :
    ∃ (s : Viewport × List Call) (W H DW DH sh sv dW dH gx ox gy oy : ℚ),
      session t lw lh ops = some s ∧
      s.1.src_rect = { x := 0, y := 0, width := W, height := -H } ∧
      s.1.rotation = 0 ∧ s.1.target = t ∧
      rnd (lw : ℚ) = some W ∧ rnd (lh : ℚ) = some H ∧
      rnd (dw : ℚ) = some DW ∧ rnd (dh : ℚ) = some DH ∧
      rnd (DW / W) = some sh ∧ rnd (DH / H) = some sv ∧
      rnd (W * min sh sv) = some dW ∧ rnd (H * min sh sv) = some dH ∧
      rnd (DW - dW) = some gx ∧ rnd (-gx * (1 / 2)) = some ox ∧
      rnd (DH - dH) = some gy ∧ rnd (-gy * (1 / 2)) = some oy ∧
      ScaleViewportToScreen dw dh s.1 =
        some
          { target := t
            src_rect := { x := 0, y := 0, width := W, height := -H }
            dest_rect := { x := 0, y := 0, width := dW, height := dH }
            origin := { x := ox, y := oy }
            rotation := 0 } := by
  obtain ⟨W, H, hW, hH, hc⟩ := create_steps t lw lh hlw hlw2 hlh hlh2
  obtain ⟨-, bW1, bW2⟩ := cast_pos_bounds lw W hW hlw hlw2
  obtain ⟨-, bH1, bH2⟩ := cast_pos_bounds lh H hH hlh hlh2
  obtain ⟨s, hs, e1, e2, e3⟩ := run_steps ops
    ({ target := t
       src_rect := { x := 0, y := 0, width := W, height := -H }
       dest_rect := { x := 0, y := 0, width := W, height := H }
       origin := { x := 0, y := 0 }
       rotation := 0 }, CreateViewportCalls t lw lh) hops bW1 bW2
    (by rw [neg_neg]; exact bH1) (by rw [neg_neg]; exact bH2)
  simp only at e1 e2 e3
  have hw : s.1.src_rect.width = W := by rw [e1]
  have hh : -s.1.src_rect.height = H := by rw [e1]; exact neg_neg H
  obtain ⟨DW, DH, sh, sv, dW, dH, gx, ox, gy, oy, h1, h2, h3, h4, h5, h6, h7, h8, h9, h10, hres⟩ :=
    scale_steps dw dh s.1 hdw1 hdw2 hdh1 hdh2 (by rw [hw]; exact bW1) (by rw [hw]; exact bW2)
      (by rw [hh]; exact bH1) (by rw [hh]; exact bH2)
  rw [hw] at h3 h5
  rw [hh] at h4 h6
  refine ⟨s, W, H, DW, DH, sh, sv, dW, dH, gx, ox, gy, oy, ?_, e1, e2, e3, hW, hH, h1, h2, h3, h4,
    h5, h6, h7, h8, h9, h10, ?_⟩
  · simp only [session, hc, Option.some_bind, hs]
  · rw [hres, e1, e2, e3]

/-- One rounding of a result of magnitude at least `2^-40` has relative error
at most `2^-24`. -/
theorem rnd_rel (q y : ℚ) (h : rnd q = some y) (hn : 1 / 1099511627776 ≤ |q|) :
    |y - q| ≤ |q| / 16777216 := by
  have h1 := rnd_err_normal q y h (le_trans (by norm_num) hn)
  have h2 : (2 : ℚ) ^ (-24 : ℤ) * |q| = |q| / 16777216 := by
    norm_num
    ring
  rw [h2] at h1
  exact h1

/-- One rounding has error at most `2^-24` of the result plus `2^-150`. -/
theorem rnd_abs (q y : ℚ) (h : rnd q = some y) :
    |y - q| ≤ |q| / 16777216 + 1 / 1427247692705959881058285969449495136382746624 := by
  have h1 := rnd_err q y h
  have h2 : (2 : ℚ) ^ (-24 : ℤ) * |q| + (2 : ℚ) ^ (-150 : ℤ) =
      |q| / 16777216 + 1 / 1427247692705959881058285969449495136382746624 := by
    norm_num
    ring
  rw [h2] at h1
  exact h1

/-- From a relative error of `2^-24`: magnitude of the rounded value. -/
theorem abs_bounds_of_rel (q y : ℚ) (h : |y - q| ≤ |q| / 16777216) :
    16777215 / 16777216 * |q| ≤ |y| ∧ |y| ≤ 16777217 / 16777216 * |q| := by
  have h1 : |y| ≤ |y - q| + |q| := by
    have := abs_add (y - q) q
    simpa using this
  have h2 : |q| ≤ |y - q| + |y| := by
    have := abs_sub_le q y 0
    have h3 : |q - y| = |y - q| := abs_sub_comm q y
    simp only [sub_zero] at this
    linarith
  constructor <;> linarith

/-- The cast of an `int` in binary32: relative error at most `2^-24`, zero
exactly for zero, magnitude at least `1/2` otherwise, sign kept. -/
theorem cast_bounds (n : Int) (D : ℚ) (h : rnd (n : ℚ) = some D) :
    |D - (n : ℚ)| ≤ |(n : ℚ)| / 16777216 ∧ (D = 0 ∨ 1 / 2 ≤ |D|) ∧ (0 ≤ n → 0 ≤ D) := by
  have hsign : 0 ≤ n → 0 ≤ D := fun hn => rnd_nonneg _ _ h (by exact_mod_cast hn)
  by_cases hn : n = 0
  · subst hn
    rw [Int.cast_zero, rnd_zero] at h
    have : D = 0 := (Option.some.inj h).symm
    subst this
    exact ⟨by norm_num, Or.inl rfl, fun _ => le_refl _⟩
  · have h1 : (1 : ℚ) ≤ |(n : ℚ)| := by
      have : (1 : Int) ≤ |n| := Int.one_le_abs hn
      exact_mod_cast this
    have hrel := rnd_rel _ _ h (le_trans (by norm_num) h1)
    obtain ⟨hlo, -⟩ := abs_bounds_of_rel _ _ hrel
    refine ⟨hrel, Or.inr (by linarith), hsign⟩

/-- The quotient of a cast by a source size: relative error at most `2^-24`,
zero or of magnitude at least `2^-34`, sign kept. -/
theorem quot_bounds (D W sh : ℚ) (h : rnd (D / W) = some sh)
    (hW1 : 1 / 2 ≤ W) (hW2 : W ≤ 4294967296) (hD : D = 0 ∨ 1 / 2 ≤ |D|) :
    |sh - D / W| ≤ |D / W| / 16777216 ∧ (sh = 0 ∨ 1 / 17179869184 ≤ |sh|) ∧
      (0 ≤ D → 0 ≤ sh) := by
  have hW0 : 0 < W := by linarith
  have hsign : 0 ≤ D → 0 ≤ sh := fun hd => rnd_nonneg _ _ h (div_nonneg hd hW0.le)
  rcases hD with hD | hD
  · subst hD
    rw [zero_div, rnd_zero] at h
    have : sh = 0 := (Option.some.inj h).symm
    subst this
    exact ⟨by norm_num, Or.inl rfl, fun _ => le_refl _⟩
  · have hq : 1 / 8589934592 ≤ |D / W| := by
      rw [abs_div, abs_of_pos hW0, le_div_iff₀ hW0]
      linarith
    have hrel := rnd_rel _ _ h (le_trans (by norm_num) hq)
    obtain ⟨hlo, -⟩ := abs_bounds_of_rel _ _ hrel
    refine ⟨hrel, Or.inr (by linarith), hsign⟩

/-- The product of a source size and the scale: relative error at most
`2^-24`, zero or of magnitude at least `2^-36`, sign kept. -/
theorem prod_bounds (W s dW : ℚ) (h : rnd (W * s) = some dW)
    (hW1 : 1 / 2 ≤ W) (hs : s = 0 ∨ 1 / 17179869184 ≤ |s|) :
    |dW - W * s| ≤ |W * s| / 16777216 ∧ (dW = 0 ∨ 1 / 68719476736 ≤ |dW|) ∧
      (0 ≤ s → 0 ≤ dW) := by
  have hW0 : 0 < W := by linarith
  have hsign : 0 ≤ s → 0 ≤ dW := fun hd => rnd_nonneg _ _ h (mul_nonneg hW0.le hd)
  rcases hs with hs | hs
  · subst hs
    rw [mul_zero, rnd_zero] at h
    have : dW = 0 := (Option.some.inj h).symm
    subst this
    exact ⟨by norm_num, Or.inl rfl, fun _ => le_refl _⟩
  · have hq : 1 / 34359738368 ≤ |W * s| := by
      rw [abs_mul, abs_of_pos hW0]
      nlinarith [abs_nonneg s]
    have hrel := rnd_rel _ _ h (le_trans (by norm_num) hq)
    obtain ⟨hlo, -⟩ := abs_bounds_of_rel _ _ hrel
    refine ⟨hrel, Or.inr (by linarith), hsign⟩

/-- The smaller of two scales that are zero or of magnitude at least `2^-34`
is so too. -/
theorem min_zero_or_large (a b : ℚ) (ha : a = 0 ∨ 1 / 17179869184 ≤ |a|)
    (hb : b = 0 ∨ 1 / 17179869184 ≤ |b|) :
    min a b = 0 ∨ 1 / 17179869184 ≤ |min a b| := by
  rcases min_choice a b with h | h <;> rw [h] <;> assumption

/-- One axis of `ScaleViewportToScreen` for a non-negative display size `n`:
the destination size is not negative and exceeds `n` by at most a relative
`2^-22`. `a` is the scale of this axis and `b` that of the other. -/
theorem axis_upper (n : Int) (W D a b dW : ℚ) (hn : 0 ≤ n) (hD : rnd (n : ℚ) = some D)
    (hW1 : 1 / 2 ≤ W) (hW2 : W ≤ 4294967296) (ha : rnd (D / W) = some a)
    (hb : 0 ≤ b) (hb0 : b = 0 ∨ 1 / 17179869184 ≤ |b|)
    (hdW : rnd (W * min a b) = some dW) :
    0 ≤ dW ∧ dW ≤ (n : ℚ) * (1 + 1 / 4194304) ∧ 0 ≤ D ∧ D ≤ (n : ℚ) * (1 + 1 / 16777216) ∧
      dW ≤ D * (1 + 1 / 8000000) := by
  have hW0 : 0 < W := by linarith
  have hnq : (0 : ℚ) ≤ (n : ℚ) := by exact_mod_cast hn
  obtain ⟨hDrel, hD0, hDs⟩ := cast_bounds n D hD
  have hDnn : 0 ≤ D := hDs hn
  obtain ⟨harel, ha0, has⟩ := quot_bounds D W a ha hW1 hW2 hD0
  have hann : 0 ≤ a := has hDnn
  have hsnn : 0 ≤ min a b := le_min hann hb
  obtain ⟨hdrel, -, hds⟩ := prod_bounds W (min a b) dW hdW hW1 (min_zero_or_large a b ha0 hb0)
  have hdnn : 0 ≤ dW := hds hsnn
  rw [abs_of_nonneg hnq] at hDrel
  rw [abs_of_nonneg (div_nonneg hDnn hW0.le)] at harel
  rw [abs_of_nonneg (mul_nonneg hW0.le hsnn)] at hdrel
  have h1 := (abs_le.mp hDrel).2
  have h2 := (abs_le.mp harel).2
  have h3 := (abs_le.mp hdrel).2
  have h4 : W * min a b ≤ W * a := mul_le_mul_of_nonneg_left (min_le_left a b) hW0.le
  have h5 : W * (D / W) = D := mul_div_cancel₀ D hW0.ne.symm
  have h6 : W * a ≤ W * (D / W + D / W / 16777216) :=
    mul_le_mul_of_nonneg_left (by linarith) hW0.le
  have h7 : W * (D / W + D / W / 16777216) = D + D / 16777216 := by
    field_simp
    ring
  rw [h7] at h6
  refine ⟨hdnn, by linarith, hDnn, by linarith, by linarith⟩

/-- One axis of `ScaleViewportToScreen` when its scale `a` is the smaller one:
the destination size is within a relative `2^-22` of the display size `n`. -/
theorem axis_tight (n : Int) (W D a b dW : ℚ) (hn : 0 ≤ n) (hD : rnd (n : ℚ) = some D)
    (hW1 : 1 / 2 ≤ W) (hW2 : W ≤ 4294967296) (ha : rnd (D / W) = some a)
    (hab : a ≤ b) (hdW : rnd (W * min a b) = some dW) :
    |dW - (n : ℚ)| ≤ (n : ℚ) / 4194304 ∧ |D - dW| ≤ (n : ℚ) / 8000000 := by
  have hW0 : 0 < W := by linarith
  have hnq : (0 : ℚ) ≤ (n : ℚ) := by exact_mod_cast hn
  obtain ⟨hDrel, hD0, hDs⟩ := cast_bounds n D hD
  have hDnn : 0 ≤ D := hDs hn
  obtain ⟨harel, ha0, has⟩ := quot_bounds D W a ha hW1 hW2 hD0
  have hann : 0 ≤ a := has hDnn
  rw [min_eq_left hab] at hdW
  obtain ⟨hdrel, -, hds⟩ := prod_bounds W a dW hdW hW1 ha0
  rw [abs_of_nonneg hnq] at hDrel
  rw [abs_of_nonneg (div_nonneg hDnn hW0.le)] at harel
  rw [abs_of_nonneg (mul_nonneg hW0.le hann)] at hdrel
  obtain ⟨h1a, h1b⟩ := abs_le.mp hDrel
  obtain ⟨h2a, h2b⟩ := abs_le.mp harel
  obtain ⟨h3a, h3b⟩ := abs_le.mp hdrel
  have h5 : W * (D / W) = D := mul_div_cancel₀ D hW0.ne.symm
  have h6 : W * a ≤ W * (D / W + D / W / 16777216) :=
    mul_le_mul_of_nonneg_left (by linarith) hW0.le
  have h7 : W * (D / W + D / W / 16777216) = D + D / 16777216 := by
    field_simp
    ring
  rw [h7] at h6
  have h8 : W * (D / W - D / W / 16777216) ≤ W * a :=
    mul_le_mul_of_nonneg_left (by linarith) hW0.le
  have h9 : W * (D / W - D / W / 16777216) = D - D / 16777216 := by
    field_simp
    ring
  rw [h9] at h8
  constructor <;> rw [abs_le] <;> constructor <;> linarith

/-- The origin of one axis: minus half the rounded slack, up to rounding; not
positive when the slack is not negative; zero when the slack is zero. -/
theorem origin_bounds (D dW gx ox : ℚ) (hgx : rnd (D - dW) = some gx)
    (hox : rnd (-gx * (1 / 2)) = some ox) :
    |ox + (D - dW) / 2| ≤
        |D - dW| / 16000000 + 1 / 713623846352979940529142984724747568191373312 ∧
      (0 ≤ D - dW → ox ≤ 0) ∧ (D - dW = 0 → ox = 0) := by
  have h1 := rnd_abs _ _ hgx
  have h2 := rnd_abs _ _ hox
  have h3 : |-gx * (1 / 2)| = |gx| / 2 := by
    rw [abs_mul, abs_neg, abs_of_pos (by norm_num : (0 : ℚ) < 1 / 2)]
    ring
  rw [h3] at h2
  have h4 : |gx| ≤ |gx - (D - dW)| + |D - dW| := by
    have := abs_add (gx - (D - dW)) (D - dW)
    simpa using this
  have h5 : ox + (D - dW) / 2 = (ox - -gx * (1 / 2)) + -((gx - (D - dW)) / 2) := by ring
  have h6 : |ox + (D - dW) / 2| ≤ |ox - -gx * (1 / 2)| + |gx - (D - dW)| / 2 := by
    rw [h5]
    refine le_trans (abs_add _ _) ?_
    rw [abs_neg, abs_div, abs_of_pos (by norm_num : (0 : ℚ) < 2)]
  have hsign : 0 ≤ D - dW → ox ≤ 0 := by
    intro hpos
    have hg : 0 ≤ gx := rnd_nonneg _ _ hgx hpos
    exact rnd_nonpos _ _ hox (by linarith)
  refine ⟨by linarith [abs_nonneg (D - dW)], hsign, ?_⟩
  intro hz
  rw [hz, rnd_zero] at hgx
  have hg : gx = 0 := (Option.some.inj hgx).symm
  rw [hg] at hox
  norm_num at hox
  rw [rnd_zero] at hox
  exact (Option.some.inj hox).symm

/-- The binary32 scale of one axis is within a relative `1/4000000` of the
exact ratio of display size to logical size. -/
theorem quot_rel (n l : Int) (W D a : ℚ) (hl : 0 < l) (hl2 : l ≤ INT_MAX)
    (hW : rnd (l : ℚ) = some W) (hD : rnd (n : ℚ) = some D) (ha : rnd (D / W) = some a) :
    |a - (n : ℚ) / (l : ℚ)| ≤ |(n : ℚ) / (l : ℚ)| / 4000000 := by
  obtain ⟨hWrel, hW1, hW2⟩ := cast_pos_bounds l W hW hl hl2
  have hW0 : 0 < W := by linarith
  have hlq : (0 : ℚ) < (l : ℚ) := by exact_mod_cast hl
  obtain ⟨hDrel, hD0, -⟩ := cast_bounds n D hD
  obtain ⟨harel, -, -⟩ := quot_bounds D W a ha hW1 hW2 hD0
  have hWrel2 : |W - (l : ℚ)| ≤ (l : ℚ) / 16777216 := by
    have : (2 : ℚ) ^ (-24 : ℤ) * (l : ℚ) = (l : ℚ) / 16777216 := by
      norm_num
      ring
    rw [this] at hWrel
    exact hWrel
  have hA : (n : ℚ) / (l : ℚ) * (l : ℚ) = (n : ℚ) := div_mul_cancel₀ _ hlq.ne.symm
  have hx : |(n : ℚ)| = |(n : ℚ) / (l : ℚ)| * (l : ℚ) := by
    rw [abs_div, abs_of_pos hlq, div_mul_cancel₀ _ hlq.ne.symm]
  have key : D - (n : ℚ) / (l : ℚ) * W =
      (D - (n : ℚ)) + (n : ℚ) / (l : ℚ) * ((l : ℚ) - W) := by
    rw [mul_sub, hA]
    ring
  have h1 : |D - (n : ℚ) / (l : ℚ) * W| ≤
      |D - (n : ℚ)| + |(n : ℚ) / (l : ℚ)| * |(l : ℚ) - W| := by
    rw [key]
    refine le_trans (abs_add _ _) ?_
    rw [abs_mul]
  have h2 : |(l : ℚ) - W| ≤ (l : ℚ) / 16777216 := by
    rw [abs_sub_comm]
    exact hWrel2
  have h3 : |(n : ℚ) / (l : ℚ)| * |(l : ℚ) - W| ≤
      |(n : ℚ) / (l : ℚ)| * ((l : ℚ) / 16777216) :=
    mul_le_mul_of_nonneg_left h2 (abs_nonneg _)
  have h4 : (l : ℚ) - (l : ℚ) / 16777216 ≤ W := by
    have := (abs_le.mp hWrel2).1
    linarith
  have h5 : |(n : ℚ) / (l : ℚ)| * ((l : ℚ) - (l : ℚ) / 16777216) ≤ |(n : ℚ) / (l : ℚ)| * W :=
    mul_le_mul_of_nonneg_left h4 (abs_nonneg _)
  have h6 : |D - (n : ℚ) / (l : ℚ) * W| ≤ |(n : ℚ) / (l : ℚ)| * W / 8000000 := by
    rw [hx] at hDrel
    have e1 : |(n : ℚ) / (l : ℚ)| * ((l : ℚ) / 16777216) =
        |(n : ℚ) / (l : ℚ)| * (l : ℚ) / 16777216 := by ring
    have e2 : |(n : ℚ) / (l : ℚ)| * ((l : ℚ) - (l : ℚ) / 16777216) =
        |(n : ℚ) / (l : ℚ)| * (l : ℚ) - |(n : ℚ) / (l : ℚ)| * (l : ℚ) / 16777216 := by ring
    rw [e1] at h3
    rw [e2] at h5
    have hnn : 0 ≤ |(n : ℚ) / (l : ℚ)| * (l : ℚ) := mul_nonneg (abs_nonneg _) hlq.le
    linarith
  have h7 : |D / W - (n : ℚ) / (l : ℚ)| ≤ |(n : ℚ) / (l : ℚ)| / 8000000 := by
    have e3 : D / W - (n : ℚ) / (l : ℚ) = (D - (n : ℚ) / (l : ℚ) * W) / W := by
      field_simp
      ring
    rw [e3, abs_div, abs_of_pos hW0, div_le_iff₀ hW0]
    have e4 : |(n : ℚ) / (l : ℚ)| / 8000000 * W = |(n : ℚ) / (l : ℚ)| * W / 8000000 := by ring
    rw [e4]
    exact h6
  have h8 : |D / W| ≤ |D / W - (n : ℚ) / (l : ℚ)| + |(n : ℚ) / (l : ℚ)| := by
    have := abs_add (D / W - (n : ℚ) / (l : ℚ)) ((n : ℚ) / (l : ℚ))
    simpa using this
  have h9 : |a - (n : ℚ) / (l : ℚ)| ≤ |a - D / W| + |D / W - (n : ℚ) / (l : ℚ)| := by
    have := abs_sub_le a (D / W) ((n : ℚ) / (l : ℚ))
    exact this
  linarith [abs_nonneg ((n : ℚ) / (l : ℚ))]

/-- The smaller of two perturbed numbers is the perturbed smaller number, for
relative perturbations of at most `d < 1`. -/
theorem min_rel (a b a1 b1 d : ℚ) (hd0 : 0 ≤ d) (hd1 : d ≤ 1)
    (ha : |a1 - a| ≤ |a| * d) (hb : |b1 - b| ≤ |b| * d) :
    |min a1 b1 - min a b| ≤ |min a b| * d := by
  have mono : ∀ x y : ℚ, x ≤ y → x - |x| * d ≤ y - |y| * d := by
    intro x y hxy
    rcases le_total 0 x with hx | hx <;> rcases le_total 0 y with hy | hy
    · rw [abs_of_nonneg hx, abs_of_nonneg hy]
      nlinarith
    · have : x = 0 := le_antisymm (le_trans hxy hy) hx
      have : y = 0 := le_antisymm hy (this ▸ hxy)
      subst_vars
      simp
    · rw [abs_of_nonpos hx, abs_of_nonneg hy]
      nlinarith
    · rw [abs_of_nonpos hx, abs_of_nonpos hy]
      nlinarith
  have mono2 : ∀ x y : ℚ, x ≤ y → x + |x| * d ≤ y + |y| * d := by
    intro x y hxy
    rcases le_total 0 x with hx | hx <;> rcases le_total 0 y with hy | hy
    · rw [abs_of_nonneg hx, abs_of_nonneg hy]
      nlinarith
    · have : x = 0 := le_antisymm (le_trans hxy hy) hx
      have : y = 0 := le_antisymm hy (this ▸ hxy)
      subst_vars
      simp
    · rw [abs_of_nonpos hx, abs_of_nonneg hy]
      nlinarith
    · rw [abs_of_nonpos hx, abs_of_nonpos hy]
      nlinarith
  obtain ⟨ha1, ha2⟩ := abs_le.mp ha
  obtain ⟨hb1, hb2⟩ := abs_le.mp hb
  rw [abs_le]
  rcases le_total a b with hab | hab
  · rw [min_eq_left hab]
    have h1 := mono a b hab
    constructor
    · have : a - |a| * d ≤ min a1 b1 := le_min (by linarith) (by linarith)
      linarith
    · have : min a1 b1 ≤ a1 := min_le_left _ _
      linarith
  · rw [min_eq_right hab]
    have h1 := mono b a hab
    constructor
    · have : b - |b| * d ≤ min a1 b1 := le_min (by linarith) (by linarith)
      linarith
    · have : min a1 b1 ≤ b1 := min_le_right _ _
      linarith

/-- The binary32 destination size of one axis is within a relative `2^-21` of
the exact logical size times the exact scale. -/
theorem prod_rel (l : Int) (W s e dW : ℚ) (hl : 0 < l) (hl2 : l ≤ INT_MAX)
    (hW : rnd (l : ℚ) = some W) (hs0 : s = 0 ∨ 1 / 17179869184 ≤ |s|)
    (hs : |s - e| ≤ |e| * (1 / 4000000)) (hdW : rnd (W * s) = some dW) :
    |dW - (l : ℚ) * e| ≤ (l : ℚ) * |e| / 2097152 := by
  obtain ⟨hWrel, hW1, hW2⟩ := cast_pos_bounds l W hW hl hl2
  have hlq : (0 : ℚ) < (l : ℚ) := by exact_mod_cast hl
  have hWrel2 : |W - (l : ℚ)| ≤ (l : ℚ) / 16777216 := by
    have : (2 : ℚ) ^ (-24 : ℤ) * (l : ℚ) = (l : ℚ) / 16777216 := by
      norm_num
      ring
    rw [this] at hWrel
    exact hWrel
  obtain ⟨hdrel, -, -⟩ := prod_bounds W s dW hdW hW1 hs0
  have h1 : |s| ≤ |s - e| + |e| := by
    have := abs_add (s - e) e
    simpa using this
  have h2 : |s| ≤ |e| * (1 + 1 / 4000000) := by linarith
  have key : W * s - (l : ℚ) * e = (W - (l : ℚ)) * s + (l : ℚ) * (s - e) := by ring
  have h3 : |W * s - (l : ℚ) * e| ≤ |W - (l : ℚ)| * |s| + (l : ℚ) * |s - e| := by
    rw [key]
    refine le_trans (abs_add _ _) ?_
    rw [abs_mul, abs_mul, abs_of_pos hlq]
  have h4 : |W - (l : ℚ)| * |s| ≤ (l : ℚ) / 16777216 * (|e| * (1 + 1 / 4000000)) :=
    mul_le_mul hWrel2 h2 (abs_nonneg _) (by positivity)
  have h5 : (l : ℚ) * |s - e| ≤ (l : ℚ) * (|e| * (1 / 4000000)) :=
    mul_le_mul_of_nonneg_left hs hlq.le
  have e1 : (l : ℚ) / 16777216 * (|e| * (1 + 1 / 4000000)) =
      (l : ℚ) * |e| * ((1 + 1 / 4000000) / 16777216) := by ring
  have e2 : (l : ℚ) * (|e| * (1 / 4000000)) = (l : ℚ) * |e| * (1 / 4000000) := by ring
  rw [e1] at h4
  rw [e2] at h5
  have h6 : |W * s| ≤ |W * s - (l : ℚ) * e| + (l : ℚ) * |e| := by
    have := abs_add (W * s - (l : ℚ) * e) ((l : ℚ) * e)
    rw [abs_mul (l : ℚ) e, abs_of_pos hlq] at this
    simpa using this
  have h7 : |dW - (l : ℚ) * e| ≤ |dW - W * s| + |W * s - (l : ℚ) * e| :=
    abs_sub_le dW (W * s) ((l : ℚ) * e)
  have hz : 0 ≤ (l : ℚ) * |e| := mul_nonneg hlq.le (abs_nonneg e)
  linarith

/-- One axis of `ScaleViewportToScreen` for a positive display size `n`: the
origin is at most a relative `2^-22` of `n`, and when the scale of this axis
is the smaller one the destination size and the origin are within `2^-22` of
`n` and of `0`. -/
theorem axis_origin (n : Int) (W D a b dW gx ox : ℚ) (hn : 0 < n) (hD : rnd (n : ℚ) = some D)
    (hW1 : 1 / 2 ≤ W) (hW2 : W ≤ 4294967296) (ha : rnd (D / W) = some a)
    (hb : 0 ≤ b) (hb0 : b = 0 ∨ 1 / 17179869184 ≤ |b|)
    (hdW : rnd (W * min a b) = some dW) (hgx : rnd (D - dW) = some gx)
    (hox : rnd (-gx * (1 / 2)) = some ox) :
    ox ≤ (n : ℚ) / 4194304 ∧
      (a ≤ b → |dW - (n : ℚ)| ≤ (n : ℚ) / 4194304 ∧ |ox| ≤ (n : ℚ) / 4194304) := by
  have hn1 : (1 : ℚ) ≤ (n : ℚ) := by exact_mod_cast hn
  obtain ⟨u1, u2, u3, u4, u5⟩ := axis_upper n W D a b dW hn.le hD hW1 hW2 ha hb hb0 hdW
  obtain ⟨o1, o2, -⟩ := origin_bounds D dW gx ox hgx hox
  constructor
  · rcases le_total 0 (D - dW) with hpos | hneg
    · have := o2 hpos
      linarith
    · rw [abs_of_nonpos hneg] at o1
      have := (abs_le.mp o1).2
      linarith
  · intro hab
    obtain ⟨t1, t2⟩ := axis_tight n W D a b dW hn.le hD hW1 hW2 ha hab hdW
    refine ⟨t1, ?_⟩
    have h1 : |ox| ≤ |ox + (D - dW) / 2| + |D - dW| / 2 := by
      have := abs_sub_le ox (-((D - dW) / 2)) 0
      simp only [sub_zero, abs_neg, sub_neg_eq_add, abs_div] at this
      rw [abs_of_pos (by norm_num : (0 : ℚ) < 2)] at this
      exact this
    linarith


/-- One axis of `ScaleViewportToScreen`: the origin is minus half the slack
between the display size `n` and the stored destination size, up to a
rounding error of `2^-23` of their magnitudes. -/
theorem axis_center (n : Int) (D dW gx ox : ℚ) (hD : rnd (n : ℚ) = some D)
    (hdW0 : dW = 0 ∨ 1 / 68719476736 ≤ |dW|) (hgx : rnd (D - dW) = some gx)
    (hox : rnd (-gx * (1 / 2)) = some ox) :
    |ox + ((n : ℚ) - dW) / 2| ≤ (|(n : ℚ)| + |dW|) / 8388608 := by
  obtain ⟨hDrel, -, -⟩ := cast_bounds n D hD
  obtain ⟨o1, -, o3⟩ := origin_bounds D dW gx ox hgx hox
  have h1 : |ox + ((n : ℚ) - dW) / 2| ≤ |ox + (D - dW) / 2| + |D - (n : ℚ)| / 2 := by
    have e : ox + ((n : ℚ) - dW) / 2 = (ox + (D - dW) / 2) + -((D - (n : ℚ)) / 2) := by ring
    rw [e]
    refine le_trans (abs_add _ _) ?_
    rw [abs_neg, abs_div, abs_of_pos (by norm_num : (0 : ℚ) < 2)]
  have h2 : |D - dW| ≤ |D - (n : ℚ)| + (|(n : ℚ)| + |dW|) := by
    have e : D - dW = (D - (n : ℚ)) + ((n : ℚ) - dW) := by ring
    rw [e]
    refine le_trans (abs_add _ _) ?_
    have := abs_sub (n : ℚ) dW
    linarith
  by_cases hn : n = 0
  · rcases hdW0 with hz | hl
    · subst hn
      subst hz
      rw [Int.cast_zero, rnd_zero] at hD
      have hD0 : D = 0 := (Option.some.inj hD).symm
      have := o3 (by rw [hD0]; norm_num)
      rw [this]
      norm_num
    · have hnn := abs_nonneg (n : ℚ)
      linarith
  · have hn1 : (1 : ℚ) ≤ |(n : ℚ)| := by
      have : (1 : Int) ≤ |n| := Int.one_le_abs hn
      exact_mod_cast this
    have hnn := abs_nonneg dW
    linarith


/-- Evaluation of one rounding of a positive number `q` from its exponent `e`
and integer significand `n`. -/
theorem rnd_at (x y q : ℚ) (e n : Int) (hx : x = q) (he : -126 ≤ e) (h1 : (2 : ℚ) ^ e ≤ q)
    (h2 : q < (2 : ℚ) ^ (e + 1)) (hlo : (n : ℚ) - 1 / 2 < q / (2 : ℚ) ^ (e - 23))
    (hhi : q / (2 : ℚ) ^ (e - 23) < (n : ℚ) + 1 / 2)
    (hov : (n : ℚ) * (2 : ℚ) ^ (e - 23) < (2 : ℚ) ^ (128 : ℕ))
    (hy : y = (n : ℚ) * (2 : ℚ) ^ (e - 23)) : rnd x = some y := by
  rw [hx, hy]
  exact rnd_eval q e n he h1 h2 hlo hhi hov

/-- Evaluation of one rounding of a negative number `-q`. -/
theorem rnd_at_neg (x y q : ℚ) (e n : Int) (hx : x = -q) (he : -126 ≤ e)
    (h1 : (2 : ℚ) ^ e ≤ q) (h2 : q < (2 : ℚ) ^ (e + 1))
    (hlo : (n : ℚ) - 1 / 2 < q / (2 : ℚ) ^ (e - 23))
    (hhi : q / (2 : ℚ) ^ (e - 23) < (n : ℚ) + 1 / 2)
    (hov : (n : ℚ) * (2 : ℚ) ^ (e - 23) < (2 : ℚ) ^ (128 : ℕ))
    (hy : y = -((n : ℚ) * (2 : ℚ) ^ (e - 23))) : rnd x = some y := by
  rw [hx, hy]
  exact rnd_neg _ _ (rnd_eval q e n he h1 h2 hlo hhi hov)

/-- Evaluation of one rounding of zero. -/
theorem rnd_at_zero (x : ℚ) (hx : x = 0) : rnd x = some 0 := by
  rw [hx]
  exact rnd_zero

/-- Evaluation of `CreateViewport` from the roundings of the two casts. -/
theorem create_eval (t : RenderTexture2D) (lw lh : Int) (W H : ℚ)
    (hW : rnd (lw : ℚ) = some W) (hH : rnd (lh : ℚ) = some H) :
    CreateViewport t lw lh =
      some
        { target := t
          src_rect := { x := 0, y := 0, width := W, height := -H }
          dest_rect := { x := 0, y := 0, width := W, height := H }
          origin := { x := 0, y := 0 }
          rotation := 0 } := by
  have hN : rnd (((-lh : Int) : ℚ)) = some (-H) := by
    rw [Int.cast_neg]
    exact rnd_neg _ _ hH
  simp only [CreateViewport, ofInt, hW, hH, hN, Option.bind_eq_bind, Option.some_bind,
    Option.pure_def]

/-- Evaluation of `ScaleViewportToScreen` from the roundings of its steps. -/
theorem scale_eval (dw dh : Int) (vp : Viewport) (DW DH sh sv s dW dH gx ox gy oy : ℚ)
    (hW : vp.src_rect.width ≠ 0) (hH : -vp.src_rect.height ≠ 0)
    (h1 : rnd (dw : ℚ) = some DW) (h2 : rnd (dh : ℚ) = some DH)
    (h3 : rnd (DW / vp.src_rect.width) = some sh)
    (h4 : rnd (DH / -vp.src_rect.height) = some sv)
    (hs : min sh sv = s)
    (h5 : rnd (vp.src_rect.width * s) = some dW)
    (h6 : rnd (-vp.src_rect.height * s) = some dH)
    (h7 : rnd (DW - dW) = some gx) (h8 : rnd (-gx * (1 / 2)) = some ox)
    (h9 : rnd (DH - dH) = some gy) (h10 : rnd (-gy * (1 / 2)) = some oy) :
    ScaleViewportToScreen dw dh vp =
      some
        { vp with
          dest_rect := { x := 0, y := 0, width := dW, height := dH }
          origin := { x := ox, y := oy } } := by
  subst hs
  simp only [ScaleViewportToScreen, ofInt, div, mul, sub, h1, h2, h3, h4, h5, h6, h7, h8, h9,
    h10, if_neg hW, if_neg hH, Option.bind_eq_bind, Option.some_bind, Option.pure_def]

/-- In binary32 `CreateViewport(320, 180)` returns `viewport_320_180`. -/
theorem create_320_180 : CreateViewport (sampleTarget 320 180) 320 180 = some viewport_320_180 :=
  create_eval (sampleTarget 320 180) 320 180 320 180
    (rnd_at _ 320 320 (8) 10485760 (by norm_num)
      (by norm_num) (by norm_num) (by norm_num) (by norm_num) (by norm_num) (by norm_num)
      (by norm_num))
    (rnd_at _ 180 180 (7) 11796480 (by norm_num)
      (by norm_num) (by norm_num) (by norm_num) (by norm_num) (by norm_num) (by norm_num)
      (by norm_num))

/-- In binary32 `ScaleViewportToScreen` under a `1366 x 768` display takes
`viewport_320_180` to `viewport_320_180_at_1366_768`. -/
theorem scale_320_180_at_1366_768 :
    ScaleViewportToScreen 1366 768 viewport_320_180 = some viewport_320_180_at_1366_768 :=
  scale_eval 1366 768 viewport_320_180 1366 768 (4476109 / 1048576) (8947849 / 2097152)
    (8947849 / 2097152)
    (11184811 / 8192) (12582913 / 16384) (5461 / 8192) (-5461 / 16384) (-1 / 16384) (1 / 32768)
    (by norm_num [viewport_320_180]) (by norm_num [viewport_320_180])
    (rnd_at _ 1366 1366 (10) 11190272 (by norm_num)
      (by norm_num) (by norm_num) (by norm_num) (by norm_num) (by norm_num) (by norm_num)
      (by norm_num))
    (rnd_at _ 768 768 (9) 12582912 (by norm_num)
      (by norm_num) (by norm_num) (by norm_num) (by norm_num) (by norm_num) (by norm_num)
      (by norm_num))
    (rnd_at _ (4476109 / 1048576) (683 / 160) (2) 8952218 (by norm_num [viewport_320_180])
      (by norm_num) (by norm_num) (by norm_num) (by norm_num) (by norm_num) (by norm_num)
      (by norm_num))
    (rnd_at _ (8947849 / 2097152) (64 / 15) (2) 8947849 (by norm_num [viewport_320_180])
      (by norm_num) (by norm_num) (by norm_num) (by norm_num) (by norm_num) (by norm_num)
      (by norm_num))
    (min_eq_right (by norm_num))
    (rnd_at _ (11184811 / 8192) (44739245 / 32768) (10) 11184811 (by norm_num [viewport_320_180])
      (by norm_num) (by norm_num) (by norm_num) (by norm_num) (by norm_num) (by norm_num)
      (by norm_num))
    (rnd_at _ (12582913 / 16384) (402653205 / 524288) (9) 12582913 (by norm_num [viewport_320_180])
      (by norm_num) (by norm_num) (by norm_num) (by norm_num) (by norm_num) (by norm_num)
      (by norm_num))
    (rnd_at _ (5461 / 8192) (5461 / 8192) (-1) 11184128 (by norm_num)
      (by norm_num) (by norm_num) (by norm_num) (by norm_num) (by norm_num) (by norm_num)
      (by norm_num))
    (rnd_at_neg _ (-5461 / 16384) (5461 / 16384) (-2) 11184128 (by norm_num)
      (by norm_num) (by norm_num) (by norm_num) (by norm_num) (by norm_num) (by norm_num)
      (by norm_num))
    (rnd_at_neg _ (-1 / 16384) (1 / 16384) (-14) 8388608 (by norm_num)
      (by norm_num) (by norm_num) (by norm_num) (by norm_num) (by norm_num) (by norm_num)
      (by norm_num))
    (rnd_at _ (1 / 32768) (1 / 32768) (-15) 8388608 (by norm_num)
      (by norm_num) (by norm_num) (by norm_num) (by norm_num) (by norm_num) (by norm_num)
      (by norm_num))

/-- In binary32 `ScaleViewportToScreen` under a `1920 x 200` display takes
`viewport_320_180` to `viewport_320_180_at_1920_200`. -/
theorem scale_320_180_at_1920_200 :
    ScaleViewportToScreen 1920 200 viewport_320_180 = some viewport_320_180_at_1920_200 :=
  scale_eval 1920 200 viewport_320_180 1920 200 6 (2330169 / 2097152) (2330169 / 2097152)
    (11650845 / 32768) (13107201 / 65536) (12815929 / 8192) (-12815929 / 16384) (-1 / 65536)
    (1 / 131072)
    (by norm_num [viewport_320_180]) (by norm_num [viewport_320_180])
    (rnd_at _ 1920 1920 (10) 15728640 (by norm_num)
      (by norm_num) (by norm_num) (by norm_num) (by norm_num) (by norm_num) (by norm_num)
      (by norm_num))
    (rnd_at _ 200 200 (7) 13107200 (by norm_num)
      (by norm_num) (by norm_num) (by norm_num) (by norm_num) (by norm_num) (by norm_num)
      (by norm_num))
    (rnd_at _ 6 6 (2) 12582912 (by norm_num [viewport_320_180])
      (by norm_num) (by norm_num) (by norm_num) (by norm_num) (by norm_num) (by norm_num)
      (by norm_num))
    (rnd_at _ (2330169 / 2097152) (10 / 9) (0) 9320676 (by norm_num [viewport_320_180])
      (by norm_num) (by norm_num) (by norm_num) (by norm_num) (by norm_num) (by norm_num)
      (by norm_num))
    (min_eq_right (by norm_num))
    (rnd_at _ (11650845 / 32768) (11650845 / 32768) (8) 11650845 (by norm_num [viewport_320_180])
      (by norm_num) (by norm_num) (by norm_num) (by norm_num) (by norm_num) (by norm_num)
      (by norm_num))
    (rnd_at _ (13107201 / 65536) (104857605 / 524288) (7) 13107201 (by norm_num [viewport_320_180])
      (by norm_num) (by norm_num) (by norm_num) (by norm_num) (by norm_num) (by norm_num)
      (by norm_num))
    (rnd_at _ (12815929 / 8192) (51263715 / 32768) (10) 12815929 (by norm_num)
      (by norm_num) (by norm_num) (by norm_num) (by norm_num) (by norm_num) (by norm_num)
      (by norm_num))
    (rnd_at_neg _ (-12815929 / 16384) (12815929 / 16384) (9) 12815929 (by norm_num)
      (by norm_num) (by norm_num) (by norm_num) (by norm_num) (by norm_num) (by norm_num)
      (by norm_num))
    (rnd_at_neg _ (-1 / 65536) (1 / 65536) (-16) 8388608 (by norm_num)
      (by norm_num) (by norm_num) (by norm_num) (by norm_num) (by norm_num) (by norm_num)
      (by norm_num))
    (rnd_at _ (1 / 131072) (1 / 131072) (-17) 8388608 (by norm_num)
      (by norm_num) (by norm_num) (by norm_num) (by norm_num) (by norm_num) (by norm_num)
      (by norm_num))

/-- In binary32 `CreateViewport(4, 3)` returns `viewport_4_3`. -/
theorem create_4_3 : CreateViewport (sampleTarget 4 3) 4 3 = some viewport_4_3 :=
  create_eval (sampleTarget 4 3) 4 3 4 3
    (rnd_at _ 4 4 (2) 8388608 (by norm_num)
      (by norm_num) (by norm_num) (by norm_num) (by norm_num) (by norm_num) (by norm_num)
      (by norm_num))
    (rnd_at _ 3 3 (1) 12582912 (by norm_num)
      (by norm_num) (by norm_num) (by norm_num) (by norm_num) (by norm_num) (by norm_num)
      (by norm_num))

/-- In binary32 `ScaleViewportToScreen` under a `8 x 6` display takes
`viewport_4_3` to `viewport_4_3_at_8_6`. -/
theorem scale_4_3_at_8_6 :
    ScaleViewportToScreen 8 6 viewport_4_3 = some viewport_4_3_at_8_6 :=
  scale_eval 8 6 viewport_4_3 8 6 2 2 2
    8 6 0 0 0 0
    (by norm_num [viewport_4_3]) (by norm_num [viewport_4_3])
    (rnd_at _ 8 8 (3) 8388608 (by norm_num)
      (by norm_num) (by norm_num) (by norm_num) (by norm_num) (by norm_num) (by norm_num)
      (by norm_num))
    (rnd_at _ 6 6 (2) 12582912 (by norm_num)
      (by norm_num) (by norm_num) (by norm_num) (by norm_num) (by norm_num) (by norm_num)
      (by norm_num))
    (rnd_at _ 2 2 (1) 8388608 (by norm_num [viewport_4_3])
      (by norm_num) (by norm_num) (by norm_num) (by norm_num) (by norm_num) (by norm_num)
      (by norm_num))
    (rnd_at _ 2 2 (1) 8388608 (by norm_num [viewport_4_3])
      (by norm_num) (by norm_num) (by norm_num) (by norm_num) (by norm_num) (by norm_num)
      (by norm_num))
    (min_eq_left (by norm_num))
    (rnd_at _ 8 8 (3) 8388608 (by norm_num [viewport_4_3])
      (by norm_num) (by norm_num) (by norm_num) (by norm_num) (by norm_num) (by norm_num)
      (by norm_num))
    (rnd_at _ 6 6 (2) 12582912 (by norm_num [viewport_4_3])
      (by norm_num) (by norm_num) (by norm_num) (by norm_num) (by norm_num) (by norm_num)
      (by norm_num))
    (rnd_at_zero _ (by norm_num))
    (rnd_at_zero _ (by norm_num))
    (rnd_at_zero _ (by norm_num))
    (rnd_at_zero _ (by norm_num))

end Binary32

/-! ## Theorems: exact model -/

/-- C3, as stated, fails: for logical size `(320, 180)` and display
`(800, 600)` the destination height is `450`, not `-450`. -/
theorem dest_height_800_600_not_negated :
    (ScaleViewportToScreen 800 600
        (CreateViewport (sampleTarget 320 180) 320 180)).dest_rect.height ≠ -450 := by
  norm_num [ScaleViewportToScreen, CreateViewport]

/-- C3, amended: for logical size `(320, 180)` and display `(800, 600)`,
`ScaleViewportToScreen` yields `dest_rect.width = 800`,
`dest_rect.height = 450`, `origin.y = -75` and `origin.x = 0`, for whatever
render texture the viewport holds. -/
theorem ScaleViewportToScreen_800_600 (t : RenderTexture2D) :
    (ScaleViewportToScreen 800 600 (CreateViewport t 320 180)).dest_rect.width = 800 ∧
    (ScaleViewportToScreen 800 600 (CreateViewport t 320 180)).dest_rect.height = 450 ∧
    (ScaleViewportToScreen 800 600 (CreateViewport t 320 180)).origin.y = -75 ∧
    (ScaleViewportToScreen 800 600 (CreateViewport t 320 180)).origin.x = 0 := by
  norm_num [ScaleViewportToScreen, CreateViewport]

/-- C6: aspect ratio. For positive logical size `(lw, lh)` and positive
display size, after `CreateViewport(lw, lh)` and `ScaleViewportToScreen`,
`|dest_rect.width / dest_rect.height| = lw / lh` exactly. -/
theorem ScaleViewportToScreen_aspect_ratio (t : RenderTexture2D) (lw lh dw dh : Int)
    (hlw : 0 < lw) (hlh : 0 < lh) (hdw : 0 < dw) (hdh : 0 < dh) :
    |(ScaleViewportToScreen dw dh (CreateViewport t lw lh)).dest_rect.width /
        (ScaleViewportToScreen dw dh (CreateViewport t lw lh)).dest_rect.height| =
      (lw : ℚ) / (lh : ℚ) := by
  have hs := fitScale_pos lw lh dw dh hlw hlh hdw hdh
  have h1 : (0 : ℚ) < (lw : ℚ) := by exact_mod_cast hlw
  have h2 : (0 : ℚ) < (lh : ℚ) := by exact_mod_cast hlh
  rw [scale_created]
  simp only
  rw [mul_div_mul_right _ _ hs.ne.symm, abs_of_pos (div_pos h1 h2)]

/-- Instance of C6 at logical size `(320, 180)` and display `(800, 600)`. -/
theorem ScaleViewportToScreen_aspect_ratio_witness :
    |(ScaleViewportToScreen 800 600
        (CreateViewport (sampleTarget 320 180) 320 180)).dest_rect.width /
        (ScaleViewportToScreen 800 600
          (CreateViewport (sampleTarget 320 180) 320 180)).dest_rect.height| =
      ((320 : Int) : ℚ) / ((180 : Int) : ℚ) :=
  ScaleViewportToScreen_aspect_ratio (sampleTarget 320 180) 320 180 800 600
    (by decide) (by decide) (by decide) (by decide)

/-- C7: `ScaleViewportToScreen` is idempotent for a fixed display size: on
every viewport state, a second call in a row yields the same viewport, hence
the same `dest_rect` and `origin`, as the first. -/
theorem ScaleViewportToScreen_idempotent (dw dh : Int) (vp : Viewport) :
    ScaleViewportToScreen dw dh (ScaleViewportToScreen dw dh vp) =
        ScaleViewportToScreen dw dh vp ∧
    (ScaleViewportToScreen dw dh (ScaleViewportToScreen dw dh vp)).dest_rect =
        (ScaleViewportToScreen dw dh vp).dest_rect ∧
    (ScaleViewportToScreen dw dh (ScaleViewportToScreen dw dh vp)).origin =
        (ScaleViewportToScreen dw dh vp).origin :=
  ⟨rfl, rfl, rfl⟩

namespace Binary32

/-- C2, as stated, fails in binary32. For logical `4 x 3` under an `8 x 6`
display every value is exact: the scale is `2` and the stored destination
height is `6`, not `-(3 * 2) = -6`. For logical `320 x 180` under
`1366 x 768` the stored width is `11184811/8192`, not the exact
`320 * min(1366/320, 768/180) = 4096/3`. -/
theorem dest_rect_not_negated_nor_exact :
    (CreateViewport (sampleTarget 4 3) 4 3).bind (ScaleViewportToScreen 8 6) =
        some viewport_4_3_at_8_6 ∧
      viewport_4_3_at_8_6.src_rect.height = -3 ∧
      viewport_4_3_at_8_6.dest_rect.height = 6 ∧
      viewport_4_3_at_8_6.dest_rect.height ≠ -((3 : ℚ) * fitScale 4 3 8 6) ∧
      (CreateViewport (sampleTarget 320 180) 320 180).bind (ScaleViewportToScreen 1366 768) =
        some viewport_320_180_at_1366_768 ∧
      viewport_320_180_at_1366_768.dest_rect.width = 11184811 / 8192 ∧
      viewport_320_180_at_1366_768.dest_rect.width ≠ (320 : ℚ) * fitScale 320 180 1366 768 := by
  refine ⟨?_, ?_, ?_, ?_, ?_, ?_, ?_⟩
  · rw [create_4_3, Option.some_bind, scale_4_3_at_8_6]
  · norm_num [viewport_4_3_at_8_6]
  · norm_num [viewport_4_3_at_8_6]
  · norm_num [viewport_4_3_at_8_6, fitScale]
  · rw [create_320_180, Option.some_bind, scale_320_180_at_1366_768]
  · norm_num [viewport_320_180_at_1366_768]
  · norm_num [viewport_320_180_at_1366_768, fitScale]

/-- C2, amended: after `CreateViewport(lw, lh)` with a positive logical size
and any sequence of operations, `ScaleViewportToScreen` under a display size
`(dw, dh)` sets `dest_rect.x = dest_rect.y = 0`,
`dest_rect.width = (float)lw * scale` and `dest_rect.height = (float)lh * scale`
(not negated; `src_rect.height` stays `-(float)lh`) with the single
`scale = min((float)dw / (float)lw, (float)dh / (float)lh)`, every operation
rounded to binary32; so the width and height are within a relative `2^-21` of
the exact `lw * s` and `lh * s`, `s = min(dw/lw, dh/lh)`. -/
theorem scale_dest_rect_up_to_rounding (t : RenderTexture2D) (lw lh : Int) (ops : List Op)
    (dw dh : Int) (hlw : 0 < lw) (hlw2 : lw ≤ INT_MAX) (hlh : 0 < lh) (hlh2 : lh ≤ INT_MAX)
    (hops : ∀ op ∈ ops, opInRange op = true)
    (hdw1 : INT_MIN ≤ dw) (hdw2 : dw ≤ INT_MAX) (hdh1 : INT_MIN ≤ dh) (hdh2 : dh ≤ INT_MAX) :
    ∃ (s : Viewport × List Call) (vp : Viewport) (W H DW DH scale_h scale_v : ℚ),
      session t lw lh ops = some s ∧ ScaleViewportToScreen dw dh s.1 = some vp ∧
      ofInt lw = some W ∧ ofInt lh = some H ∧ ofInt dw = some DW ∧ ofInt dh = some DH ∧
      div DW W = some scale_h ∧ div DH H = some scale_v ∧
      vp.dest_rect.x = 0 ∧ vp.dest_rect.y = 0 ∧
      mul W (min scale_h scale_v) = some vp.dest_rect.width ∧
      mul H (min scale_h scale_v) = some vp.dest_rect.height ∧
      vp.src_rect.height = -H ∧
      |vp.dest_rect.width - (lw : ℚ) * min ((dw : ℚ) / (lw : ℚ)) ((dh : ℚ) / (lh : ℚ))| ≤
        (lw : ℚ) * |min ((dw : ℚ) / (lw : ℚ)) ((dh : ℚ) / (lh : ℚ))| / 2097152 ∧
      |vp.dest_rect.height - (lh : ℚ) * min ((dw : ℚ) / (lw : ℚ)) ((dh : ℚ) / (lh : ℚ))| ≤
        (lh : ℚ) * |min ((dw : ℚ) / (lw : ℚ)) ((dh : ℚ) / (lh : ℚ))| / 2097152 := by
  obtain ⟨s, W, H, DW, DH, sh, sv, dW, dH, gx, ox, gy, oy, hs, -, -, -, hW, hH, hDW, hDH, hsh,
    hsv, hdW, hdH, hgx, hox, hgy, hoy, hres⟩ :=
    session_scale_steps t lw lh ops dw dh hlw hlw2 hlh hlh2 hops hdw1 hdw2 hdh1 hdh2
  obtain ⟨-, bW1, bW2⟩ := cast_pos_bounds lw W hW hlw hlw2
  obtain ⟨-, bH1, bH2⟩ := cast_pos_bounds lh H hH hlh hlh2
  obtain ⟨-, hDW0, -⟩ := cast_bounds dw DW hDW
  obtain ⟨-, hDH0, -⟩ := cast_bounds dh DH hDH
  obtain ⟨-, hsh0, -⟩ := quot_bounds DW W sh hsh bW1 bW2 hDW0
  obtain ⟨-, hsv0, -⟩ := quot_bounds DH H sv hsv bH1 bH2 hDH0
  have hs0 := min_zero_or_large sh sv hsh0 hsv0
  have qa := quot_rel dw lw W DW sh hlw hlw2 hW hDW hsh
  have qb := quot_rel dh lh H DH sv hlh hlh2 hH hDH hsv
  rw [div_eq_mul_one_div |(dw : ℚ) / (lw : ℚ)| 4000000] at qa
  rw [div_eq_mul_one_div |(dh : ℚ) / (lh : ℚ)| 4000000] at qb
  have hm := min_rel ((dw : ℚ) / (lw : ℚ)) ((dh : ℚ) / (lh : ℚ)) sh sv (1 / 4000000)
    (by norm_num) (by norm_num) qa qb
  have pw := prod_rel lw W (min sh sv) _ dW hlw hlw2 hW hs0 hm hdW
  have ph := prod_rel lh H (min sh sv) _ dH hlh hlh2 hH hs0 hm hdH
  have hW0 : W ≠ 0 := by linarith
  have hH0 : H ≠ 0 := by linarith
  refine ⟨s, _, W, H, DW, DH, sh, sv, hs, hres, hW, hH, hDW, hDH, ?_, ?_, rfl, rfl, hdW, hdH,
    rfl, pw, ph⟩
  · simp only [div, if_neg hW0, hsh]
  · simp only [div, if_neg hH0, hsv]

/-- Instance of the amended C2: logical size `320 x 180`, a frame with a
resize to `800 x 600`, then a resize to `1366 x 768`. -/
theorem scale_dest_rect_up_to_rounding_witness :
    ∃ (s : Viewport × List Call) (vp : Viewport),
      session (sampleTarget 320 180) 320 180
        [Op.beginMode, Op.endMode, Op.scale 800 600, Op.draw] = some s ∧
      ScaleViewportToScreen 1366 768 s.1 = some vp ∧
      vp.dest_rect.x = 0 ∧ vp.dest_rect.y = 0 ∧
      |vp.dest_rect.width - ((320 : Int) : ℚ) *
          min (((1366 : Int) : ℚ) / ((320 : Int) : ℚ)) (((768 : Int) : ℚ) / ((180 : Int) : ℚ))| ≤
        ((320 : Int) : ℚ) *
          |min (((1366 : Int) : ℚ) / ((320 : Int) : ℚ)) (((768 : Int) : ℚ) / ((180 : Int) : ℚ))| /
            2097152 ∧
      |vp.dest_rect.height - ((180 : Int) : ℚ) *
          min (((1366 : Int) : ℚ) / ((320 : Int) : ℚ)) (((768 : Int) : ℚ) / ((180 : Int) : ℚ))| ≤
        ((180 : Int) : ℚ) *
          |min (((1366 : Int) : ℚ) / ((320 : Int) : ℚ)) (((768 : Int) : ℚ) / ((180 : Int) : ℚ))| /
            2097152 := by
  obtain ⟨s, vp, -, -, -, -, -, -, h1, h2, -, -, -, -, -, -, h3, h4, -, -, -, h5, h6⟩ :=
    scale_dest_rect_up_to_rounding (sampleTarget 320 180) 320 180
      [Op.beginMode, Op.endMode, Op.scale 800 600, Op.draw] 1366 768
      (by decide) (by decide) (by decide) (by decide) (by decide) (by decide) (by decide)
      (by decide) (by decide)
  exact ⟨s, vp, h1, h2, h3, h4, h5, h6⟩

/-- C4, as stated, fails in binary32. For logical `320 x 180` under a
`1920 x 200` display the stored `origin.x = -12815929/16384` is neither
`-(1920 - dest_w)/2` for the stored `dest_w = 11650845/32768` nor for the
exact `dest_w = 320 * min(1920/320, 200/180)`, and the margin before the
image differs from the margin after it. -/
theorem origin_not_exactly_centered :
    (CreateViewport (sampleTarget 320 180) 320 180).bind (ScaleViewportToScreen 1920 200) =
        some viewport_320_180_at_1920_200 ∧
      viewport_320_180_at_1920_200.origin.x ≠
        -((1920 : ℚ) - viewport_320_180_at_1920_200.dest_rect.width) / 2 ∧
      viewport_320_180_at_1920_200.origin.x ≠
        -((1920 : ℚ) - (320 : ℚ) * fitScale 320 180 1920 200) / 2 ∧
      viewport_320_180_at_1920_200.dest_rect.x - viewport_320_180_at_1920_200.origin.x ≠
        (1920 : ℚ) -
          (viewport_320_180_at_1920_200.dest_rect.x - viewport_320_180_at_1920_200.origin.x +
            viewport_320_180_at_1920_200.dest_rect.width) := by
  refine ⟨?_, ?_, ?_, ?_⟩
  · rw [create_320_180, Option.some_bind, scale_320_180_at_1920_200]
  · norm_num [viewport_320_180_at_1920_200]
  · norm_num [viewport_320_180_at_1920_200, fitScale]
  · norm_num [viewport_320_180_at_1920_200]

/-- C4, amended: after `CreateViewport(lw, lh)` with a positive logical size
and any sequence of operations, `ScaleViewportToScreen` under a display size
`(dw, dh)` stores `origin.x = -(dw - dest_w) * 0.5` and
`origin.y = -(dh - dest_h) * 0.5` computed in binary32 from the stored
`dest_w = dest_rect.width` and `dest_h = dest_rect.height`, so that
`|origin.x + (dw - dest_w)/2| ≤ 2^-23 * (|dw| + |dest_w|)`, the same for `y`,
and the margins before and after the image differ by at most
`2^-22 * (|dw| + |dest_w|)`, respectively `2^-22 * (|dh| + |dest_h|)`. -/
theorem scale_origin_centered_up_to_rounding (t : RenderTexture2D) (lw lh : Int)
    (ops : List Op) (dw dh : Int) (hlw : 0 < lw) (hlw2 : lw ≤ INT_MAX) (hlh : 0 < lh)
    (hlh2 : lh ≤ INT_MAX) (hops : ∀ op ∈ ops, opInRange op = true)
    (hdw1 : INT_MIN ≤ dw) (hdw2 : dw ≤ INT_MAX) (hdh1 : INT_MIN ≤ dh) (hdh2 : dh ≤ INT_MAX) :
    ∃ (s : Viewport × List Call) (vp : Viewport) (DW DH gx gy : ℚ),
      session t lw lh ops = some s ∧ ScaleViewportToScreen dw dh s.1 = some vp ∧
      ofInt dw = some DW ∧ ofInt dh = some DH ∧
      sub DW vp.dest_rect.width = some gx ∧ mul (-gx) (1 / 2) = some vp.origin.x ∧
      sub DH vp.dest_rect.height = some gy ∧ mul (-gy) (1 / 2) = some vp.origin.y ∧
      |vp.origin.x + ((dw : ℚ) - vp.dest_rect.width) / 2| ≤
        (|(dw : ℚ)| + |vp.dest_rect.width|) / 8388608 ∧
      |vp.origin.y + ((dh : ℚ) - vp.dest_rect.height) / 2| ≤
        (|(dh : ℚ)| + |vp.dest_rect.height|) / 8388608 ∧
      |(vp.dest_rect.x - vp.origin.x) -
          ((dw : ℚ) - (vp.dest_rect.x - vp.origin.x + vp.dest_rect.width))| ≤
        (|(dw : ℚ)| + |vp.dest_rect.width|) / 4194304 ∧
      |(vp.dest_rect.y - vp.origin.y) -
          ((dh : ℚ) - (vp.dest_rect.y - vp.origin.y + vp.dest_rect.height))| ≤
        (|(dh : ℚ)| + |vp.dest_rect.height|) / 4194304 := by
  obtain ⟨s, W, H, DW, DH, sh, sv, dW, dH, gx, ox, gy, oy, hs, -, -, -, hW, hH, hDW, hDH, hsh,
    hsv, hdW, hdH, hgx, hox, hgy, hoy, hres⟩ :=
    session_scale_steps t lw lh ops dw dh hlw hlw2 hlh hlh2 hops hdw1 hdw2 hdh1 hdh2
  obtain ⟨-, bW1, bW2⟩ := cast_pos_bounds lw W hW hlw hlw2
  obtain ⟨-, bH1, bH2⟩ := cast_pos_bounds lh H hH hlh hlh2
  obtain ⟨-, hDW0, -⟩ := cast_bounds dw DW hDW
  obtain ⟨-, hDH0, -⟩ := cast_bounds dh DH hDH
  obtain ⟨-, hsh0, -⟩ := quot_bounds DW W sh hsh bW1 bW2 hDW0
  obtain ⟨-, hsv0, -⟩ := quot_bounds DH H sv hsv bH1 bH2 hDH0
  have hs0 := min_zero_or_large sh sv hsh0 hsv0
  obtain ⟨-, hdW0, -⟩ := prod_bounds W (min sh sv) dW hdW bW1 hs0
  obtain ⟨-, hdH0, -⟩ := prod_bounds H (min sh sv) dH hdH bH1 hs0
  have cx := axis_center dw DW dW gx ox hDW hdW0 hgx hox
  have cy := axis_center dh DH dH gy oy hDH hdH0 hgy hoy
  have margin : ∀ n o d : ℚ, |o + (n - d) / 2| ≤ (|n| + |d|) / 8388608 →
      |((0 : ℚ) - o) - (n - ((0 : ℚ) - o + d))| ≤ (|n| + |d|) / 4194304 := by
    intro n o d h
    have e : ((0 : ℚ) - o) - (n - ((0 : ℚ) - o + d)) = -(2 * (o + (n - d) / 2)) := by ring
    rw [e, abs_neg, abs_mul, abs_of_pos (by norm_num : (0 : ℚ) < 2)]
    linarith
  exact ⟨s, _, DW, DH, gx, gy, hs, hres, hDW, hDH, hgx, hox, hgy, hoy, cx, cy,
    margin _ _ _ cx, margin _ _ _ cy⟩

/-- Instance of the amended C4: logical size `320 x 180`, a frame with a
resize to `800 x 600`, then a resize to `1366 x 200`. -/
theorem scale_origin_centered_up_to_rounding_witness :
    ∃ (s : Viewport × List Call) (vp : Viewport),
      session (sampleTarget 320 180) 320 180
        [Op.beginMode, Op.endMode, Op.scale 800 600, Op.draw] = some s ∧
      ScaleViewportToScreen 1366 200 s.1 = some vp ∧
      |vp.origin.x + (((1366 : Int) : ℚ) - vp.dest_rect.width) / 2| ≤
        (|((1366 : Int) : ℚ)| + |vp.dest_rect.width|) / 8388608 ∧
      |vp.origin.y + (((200 : Int) : ℚ) - vp.dest_rect.height) / 2| ≤
        (|((200 : Int) : ℚ)| + |vp.dest_rect.height|) / 8388608 := by
  obtain ⟨s, vp, -, -, -, -, h1, h2, -, -, -, -, -, -, h3, h4, -⟩ :=
    scale_origin_centered_up_to_rounding (sampleTarget 320 180) 320 180
      [Op.beginMode, Op.endMode, Op.scale 800 600, Op.draw] 1366 200
      (by decide) (by decide) (by decide) (by decide) (by decide) (by decide) (by decide)
      (by decide) (by decide)
  exact ⟨s, vp, h1, h2, h3, h4⟩

/-- C5, as stated, fails in binary32. For logical `320 x 180` under a
`1366 x 768` display the stored destination height is `12582913/16384`,
which is more than `768`. -/
theorem dest_height_exceeds_display :
    (CreateViewport (sampleTarget 320 180) 320 180).bind (ScaleViewportToScreen 1366 768) =
        some viewport_320_180_at_1366_768 ∧
      viewport_320_180_at_1366_768.dest_rect.height = 12582913 / 16384 ∧
      (768 : ℚ) < |viewport_320_180_at_1366_768.dest_rect.height| := by
  refine ⟨?_, ?_, ?_⟩
  · rw [create_320_180, Option.some_bind, scale_320_180_at_1366_768]
  · norm_num [viewport_320_180_at_1366_768]
  · norm_num [viewport_320_180_at_1366_768, abs_of_pos]

/-- C5, amended: after `CreateViewport(lw, lh)` with a positive logical size
and any sequence of operations, `ScaleViewportToScreen` under a display size
`(dw, dh)` with `dw, dh ≥ 0` returns a destination size that is not negative
and fits the display up to rounding: `dest_rect.width ≤ dw * (1 + 2^-22)`
and `dest_rect.height ≤ dh * (1 + 2^-22)`. -/
theorem scale_fits_up_to_rounding (t : RenderTexture2D) (lw lh : Int) (ops : List Op)
    (dw dh : Int) (hlw : 0 < lw) (hlw2 : lw ≤ INT_MAX) (hlh : 0 < lh) (hlh2 : lh ≤ INT_MAX)
    (hops : ∀ op ∈ ops, opInRange op = true)
    (hdw : 0 ≤ dw) (hdw2 : dw ≤ INT_MAX) (hdh : 0 ≤ dh) (hdh2 : dh ≤ INT_MAX) :
    ∃ (s : Viewport × List Call) (vp : Viewport),
      session t lw lh ops = some s ∧ ScaleViewportToScreen dw dh s.1 = some vp ∧
      0 ≤ vp.dest_rect.width ∧ 0 ≤ vp.dest_rect.height ∧
      |vp.dest_rect.width| ≤ (dw : ℚ) * (1 + 1 / 4194304) ∧
      |vp.dest_rect.height| ≤ (dh : ℚ) * (1 + 1 / 4194304) := by
  have hmin : INT_MIN ≤ 0 := by unfold INT_MIN; norm_num
  obtain ⟨s, W, H, DW, DH, sh, sv, dW, dH, gx, ox, gy, oy, hs, -, -, -, hW, hH, hDW, hDH, hsh,
    hsv, hdW, hdH, -, -, -, -, hres⟩ :=
    session_scale_steps t lw lh ops dw dh hlw hlw2 hlh hlh2 hops (le_trans hmin hdw) hdw2
      (le_trans hmin hdh) hdh2
  obtain ⟨-, bW1, bW2⟩ := cast_pos_bounds lw W hW hlw hlw2
  obtain ⟨-, bH1, bH2⟩ := cast_pos_bounds lh H hH hlh hlh2
  obtain ⟨-, hDW0, hDWs⟩ := cast_bounds dw DW hDW
  obtain ⟨-, hDH0, hDHs⟩ := cast_bounds dh DH hDH
  obtain ⟨-, hsh0, hshs⟩ := quot_bounds DW W sh hsh bW1 bW2 hDW0
  obtain ⟨-, hsv0, hsvs⟩ := quot_bounds DH H sv hsv bH1 bH2 hDH0
  have hshnn : 0 ≤ sh := hshs (hDWs hdw)
  have hsvnn : 0 ≤ sv := hsvs (hDHs hdh)
  obtain ⟨a1, a2, -⟩ := axis_upper dw W DW sh sv dW hdw hDW bW1 bW2 hsh hsvnn hsv0 hdW
  rw [min_comm] at hdH
  obtain ⟨b1, b2, -⟩ := axis_upper dh H DH sv sh dH hdh hDH bH1 bH2 hsv hshnn hsh0 hdH
  refine ⟨s, _, hs, hres, a1, b1, ?_, ?_⟩
  · simp only [abs_of_nonneg a1]
    exact a2
  · simp only [abs_of_nonneg b1]
    exact b2

/-- Instance of the amended C5: logical size `320 x 180`, a frame with a
resize to `800 x 600`, then a resize to `1366 x 768`. -/
theorem scale_fits_up_to_rounding_witness :
    ∃ (s : Viewport × List Call) (vp : Viewport),
      session (sampleTarget 320 180) 320 180
        [Op.beginMode, Op.endMode, Op.scale 800 600, Op.draw] = some s ∧
      ScaleViewportToScreen 1366 768 s.1 = some vp ∧
      0 ≤ vp.dest_rect.width ∧ 0 ≤ vp.dest_rect.height ∧
      |vp.dest_rect.width| ≤ ((1366 : Int) : ℚ) * (1 + 1 / 4194304) ∧
      |vp.dest_rect.height| ≤ ((768 : Int) : ℚ) * (1 + 1 / 4194304) :=
  scale_fits_up_to_rounding (sampleTarget 320 180) 320 180
    [Op.beginMode, Op.endMode, Op.scale 800 600, Op.draw] 1366 768
    (by decide) (by decide) (by decide) (by decide) (by decide) (by decide) (by decide)
    (by decide) (by decide)

/-- C10, as stated, fails in binary32. For logical `320 x 180` under a
`1366 x 768` display `origin.y = 1/32768` is positive, `origin.x` is not
zero, and neither destination size equals the display size. -/
theorem origin_positive_and_no_axis_exact :
    (CreateViewport (sampleTarget 320 180) 320 180).bind (ScaleViewportToScreen 1366 768) =
        some viewport_320_180_at_1366_768 ∧
      0 < viewport_320_180_at_1366_768.origin.y ∧
      viewport_320_180_at_1366_768.origin.x ≠ 0 ∧
      |viewport_320_180_at_1366_768.dest_rect.width| ≠ 1366 ∧
      |viewport_320_180_at_1366_768.dest_rect.height| ≠ 768 := by
  refine ⟨?_, ?_, ?_, ?_, ?_⟩
  · rw [create_320_180, Option.some_bind, scale_320_180_at_1366_768]
  · norm_num [viewport_320_180_at_1366_768]
  · norm_num [viewport_320_180_at_1366_768]
  · norm_num [viewport_320_180_at_1366_768, abs_of_pos]
  · norm_num [viewport_320_180_at_1366_768, abs_of_pos]

/-- C10, amended: after `CreateViewport(lw, lh)` with a positive logical size
and any sequence of operations, `ScaleViewportToScreen` under a positive
display size `(dw, dh)` gives `origin.x ≤ 2^-22 * dw` and
`origin.y ≤ 2^-22 * dh`, and on at least one axis the image fills the display
up to rounding: `|dest_rect.width - dw| ≤ 2^-22 * dw` and
`|origin.x| ≤ 2^-22 * dw`, or the same for the height, `dh` and `origin.y`. -/
theorem scale_bars_one_axis_up_to_rounding (t : RenderTexture2D) (lw lh : Int) (ops : List Op)
    (dw dh : Int) (hlw : 0 < lw) (hlw2 : lw ≤ INT_MAX) (hlh : 0 < lh) (hlh2 : lh ≤ INT_MAX)
    (hops : ∀ op ∈ ops, opInRange op = true)
    (hdw : 0 < dw) (hdw2 : dw ≤ INT_MAX) (hdh : 0 < dh) (hdh2 : dh ≤ INT_MAX) :
    ∃ (s : Viewport × List Call) (vp : Viewport),
      session t lw lh ops = some s ∧ ScaleViewportToScreen dw dh s.1 = some vp ∧
      vp.origin.x ≤ (dw : ℚ) / 4194304 ∧ vp.origin.y ≤ (dh : ℚ) / 4194304 ∧
      ((|vp.dest_rect.width - (dw : ℚ)| ≤ (dw : ℚ) / 4194304 ∧
          |vp.origin.x| ≤ (dw : ℚ) / 4194304) ∨
        (|vp.dest_rect.height - (dh : ℚ)| ≤ (dh : ℚ) / 4194304 ∧
          |vp.origin.y| ≤ (dh : ℚ) / 4194304)) := by
  have hmin : INT_MIN ≤ 0 := by unfold INT_MIN; norm_num
  obtain ⟨s, W, H, DW, DH, sh, sv, dW, dH, gx, ox, gy, oy, hs, -, -, -, hW, hH, hDW, hDH, hsh,
    hsv, hdW, hdH, hgx, hox, hgy, hoy, hres⟩ :=
    session_scale_steps t lw lh ops dw dh hlw hlw2 hlh hlh2 hops (le_trans hmin hdw.le) hdw2
      (le_trans hmin hdh.le) hdh2
  obtain ⟨-, bW1, bW2⟩ := cast_pos_bounds lw W hW hlw hlw2
  obtain ⟨-, bH1, bH2⟩ := cast_pos_bounds lh H hH hlh hlh2
  obtain ⟨-, hDW0, hDWs⟩ := cast_bounds dw DW hDW
  obtain ⟨-, hDH0, hDHs⟩ := cast_bounds dh DH hDH
  obtain ⟨-, hsh0, hshs⟩ := quot_bounds DW W sh hsh bW1 bW2 hDW0
  obtain ⟨-, hsv0, hsvs⟩ := quot_bounds DH H sv hsv bH1 bH2 hDH0
  have hshnn : 0 ≤ sh := hshs (hDWs hdw.le)
  have hsvnn : 0 ≤ sv := hsvs (hDHs hdh.le)
  obtain ⟨x1, x2⟩ := axis_origin dw W DW sh sv dW gx ox hdw hDW bW1 bW2 hsh hsvnn hsv0 hdW
    hgx hox
  rw [min_comm] at hdH
  obtain ⟨y1, y2⟩ := axis_origin dh H DH sv sh dH gy oy hdh hDH bH1 bH2 hsv hshnn hsh0 hdH
    hgy hoy
  refine ⟨s, _, hs, hres, x1, y1, ?_⟩
  rcases le_total sh sv with h | h
  · exact Or.inl (x2 h)
  · exact Or.inr (y2 h)

/-- Instance of the amended C10: logical size `320 x 180`, a frame with a
resize to `800 x 600`, then a resize to `1366 x 768`. -/
theorem scale_bars_one_axis_up_to_rounding_witness :
    ∃ (s : Viewport × List Call) (vp : Viewport),
      session (sampleTarget 320 180) 320 180
        [Op.beginMode, Op.endMode, Op.scale 800 600, Op.draw] = some s ∧
      ScaleViewportToScreen 1366 768 s.1 = some vp ∧
      vp.origin.x ≤ ((1366 : Int) : ℚ) / 4194304 ∧ vp.origin.y ≤ ((768 : Int) : ℚ) / 4194304 ∧
      ((|vp.dest_rect.width - ((1366 : Int) : ℚ)| ≤ ((1366 : Int) : ℚ) / 4194304 ∧
          |vp.origin.x| ≤ ((1366 : Int) : ℚ) / 4194304) ∨
        (|vp.dest_rect.height - ((768 : Int) : ℚ)| ≤ ((768 : Int) : ℚ) / 4194304 ∧
          |vp.origin.y| ≤ ((768 : Int) : ℚ) / 4194304)) :=
  scale_bars_one_axis_up_to_rounding (sampleTarget 320 180) 320 180
    [Op.beginMode, Op.endMode, Op.scale 800 600, Op.draw] 1366 768
    (by decide) (by decide) (by decide) (by decide) (by decide) (by decide) (by decide)
    (by decide) (by decide)

end Binary32

end ZigDug
